import Mathlib

/-!
Verification of the AgentPay SDK core: a shallow embedding of the
double-entry ledger (src/agentpay/ledger_manager.py), the payment engine
(src/agentpay/payment_engine.py), the escrow manager
(src/agentpay/escrow_manager.py) and their data models
(src/agentpay/models/). Amounts are Python ints, modelled as Int.
Python object mutation through the registry dictionary is modelled by
in-place updates of an association list keyed by agent id, which preserves
the aliasing behaviour of the source (two lookups of the same id mutate
the same stored record). Timestamps are modelled as an abstract Nat tick
passed to the operations that stamp them; generated UUIDs are modelled as
explicit id parameters.
-/

deriving instance DecidableEq for Except

namespace AgentPay

/-- EntryType enum from src/agentpay/models/ledger.py. -/
inductive EntryType
  | payment
  | escrow_lock
  | escrow_release
  | escrow_cancel
  | stream_tick
  | top_up
  | withdrawal
  | adjustment
deriving DecidableEq

/-- Modelled from the spec: the TransactionType enum {INCOME, EXPENSE} is
imported from agentpay.models.ledger throughout the code, but its declaration
is missing from the src copy of models/ledger.py; the spec (section 3) gives
`transaction_type: enum{INCOME,EXPENSE}?`. -/
inductive TransactionType
  | income
  | expense
deriving DecidableEq

/-- LedgerEntry from src/agentpay/models/ledger.py. The fields
transaction_type and counterparty_id are modelled from the spec (section 3),
since the src copy of models/ledger.py omits them while ledger_manager.py
sets them on payment and escrow-release entries. The generated entry_id and
the created_at timestamp are omitted: no claim mentions them. -/
structure LedgerEntry where
  agent_id : String
  delta_amount : Int
  entry_type : EntryType
  reference_id : String
  balance_after : Int
  memo : Option String
  transaction_type : Option TransactionType
  counterparty_id : Option String
deriving DecidableEq

/-- Wallet from src/agentpay/models/wallet.py. Pydantic validates
balance >= 0 and hold >= 0 at construction; assignments afterwards are
not re-validated, so the fields are plain Int here and non-negativity is
proved as an invariant. -/
structure Wallet where
  balance : Int
  hold : Int
deriving DecidableEq

/-- Wallet.can_spend: balance >= amount. -/
def Wallet.can_spend (w : Wallet) (amount : Int) : Bool :=
  decide (w.balance ≥ amount)

/-- Wallet.can_hold: balance >= amount. -/
def Wallet.can_hold (w : Wallet) (amount : Int) : Bool :=
  decide (w.balance ≥ amount)

/-- Policy from src/agentpay/models/policy.py. The allowlist set is
modelled as a list of ids. -/
structure Policy where
  max_per_transaction : Option Int
  daily_spend_cap : Option Int
  require_human_approval_over : Option Int
  allowlist : Option (List String)
  paused : Bool
deriving DecidableEq

/-- Policy.is_agent_allowed from src/agentpay/models/policy.py. -/
def Policy.is_agent_allowed (p : Policy) (agent_id : String) : Bool :=
  match p.allowlist with
  | none => true
  | some l => decide (agent_id ∈ l)

/-- Policy.is_amount_allowed from src/agentpay/models/policy.py. -/
def Policy.is_amount_allowed (p : Policy) (amount : Int) : Bool :=
  match p.max_per_transaction with
  | none => true
  | some m => decide (amount ≤ m)

/-- Policy.requires_approval from src/agentpay/models/policy.py. -/
def Policy.requires_approval (p : Policy) (amount : Int) : Bool :=
  match p.require_human_approval_over with
  | none => false
  | some t => decide (amount > t)

/-- Agent from src/agentpay/models/agent.py. The metadata dict is omitted
(no claim mentions it). The fields total_earned and total_spent are
modelled from the spec (section 3): ledger_manager.py and sdk.py read and
update them, but the src copy of models/agent.py omits their declarations. -/
structure Agent where
  agent_id : String
  wallet : Wallet
  policy : Policy
  total_earned : Int
  total_spent : Int
deriving DecidableEq

/-- Agent.can_pay from src/agentpay/models/agent.py: four ordered checks,
short-circuiting at the first failure. -/
def Agent.can_pay (a : Agent) (amount : Int) (recipient_id : String) :
    Bool × Option String :=
  if a.policy.paused then (false, some "AGENT_PAUSED")
  else if ¬ a.policy.is_agent_allowed recipient_id then
    (false, some "RECIPIENT_NOT_ALLOWED")
  else if ¬ a.policy.is_amount_allowed amount then
    (false, some "AMOUNT_EXCEEDS_LIMIT")
  else if ¬ a.wallet.can_spend amount then
    (false, some "INSUFFICIENT_FUNDS")
  else (true, none)

/-- Lookup in a Python dict modelled as an association list
(first matching key; registration forbids duplicate keys). -/
def lookupKey {α : Type} : List (String × α) → String → Option α
  | [], _ => none
  | p :: r, k => if p.1 = k then some p.2 else lookupKey r k

/-- Python dict assignment d[k] = v: replace the value at the first
occurrence of the key, or append a new binding. Matches the insertion-order
semantics of Python dicts. -/
def setKey {α : Type} : List (String × α) → String → α → List (String × α)
  | [], k, v => [(k, v)]
  | p :: r, k, v => if p.1 = k then (k, v) :: r else p :: setKey r k v

/-- In-place mutation of the object stored under a key, as performed by the
Python code through object aliasing: mutate the value at the first occurrence
of the key, leaving the rest untouched. -/
def modifyKey {α : Type} : List (String × α) → String → (α → α) → List (String × α)
  | [], _, _ => []
  | p :: r, k, f => if p.1 = k then (p.1, f p.2) :: r else p :: modifyKey r k f

/-- AgentRegistry from src/agentpay/agent_registry.py: a dict keyed by
agent_id. -/
abbrev AgentRegistry := List (String × Agent)

/-- AgentRegistry.get_agent. -/
def AgentRegistry.get_agent (r : AgentRegistry) (agent_id : String) : Option Agent :=
  lookupKey r agent_id

/-- Balance of the stored agent, defaulting to 0 when absent (only used
under lookups that are proved to succeed). -/
def AgentRegistry.balanceOf (r : AgentRegistry) (agent_id : String) : Int :=
  match r.get_agent agent_id with
  | some a => a.wallet.balance
  | none => 0

/-- Hold of the stored agent, defaulting to 0 when absent (only used
under lookups that are proved to succeed). -/
def AgentRegistry.holdOf (r : AgentRegistry) (agent_id : String) : Int :=
  match r.get_agent agent_id with
  | some a => a.wallet.hold
  | none => 0

/-- Errors raised (as ValueError / pydantic ValidationError) by the
LedgerManager operations in src/agentpay/ledger_manager.py. The
validationError constructor stands for the pydantic gt/ge check firing at
LedgerEntry construction (balance_after >= 0). -/
inductive LedgerError
  | invalidAmount
  | agentNotFound (agent_id : String)
  | payerNotFound (agent_id : String)
  | payeeNotFound (agent_id : String)
  | insufficientFunds (agent_id : String)
  | insufficientHold (agent_id : String)
  | validationError
deriving DecidableEq

/-- Combined state of the AgentRegistry and the LedgerManager entry list
(ledger_manager.py holds a reference to the shared registry). -/
structure LedgerState where
  agents : AgentRegistry
  entries : List LedgerEntry
deriving DecidableEq

/-- LedgerManager.record_top_up from src/agentpay/ledger_manager.py.
On error the state at the raise point is returned alongside the error:
all ValueError raises precede the mutation, and the pydantic check on
balance_after fires after the balance mutation (visible through the
registry by aliasing) but before the entry is appended. -/
def LedgerState.record_top_up (s : LedgerState) (agent_id : String) (amount : Int)
    (reference_id : String) (memo : Option String) :
    LedgerState × Except LedgerError LedgerEntry :=
  if amount ≤ 0 then (s, .error .invalidAmount)
  else
    match s.agents.get_agent agent_id with
    | none => (s, .error (.agentNotFound agent_id))
    | some _ =>
      let agents1 := modifyKey s.agents agent_id
        (fun a => { a with wallet := { a.wallet with balance := a.wallet.balance + amount } })
      let bal := AgentRegistry.balanceOf agents1 agent_id
      if bal < 0 then ({ s with agents := agents1 }, .error .validationError)
      else
        let entry : LedgerEntry :=
          { agent_id := agent_id, delta_amount := amount, entry_type := .top_up,
            reference_id := reference_id, balance_after := bal, memo := memo,
            transaction_type := none, counterparty_id := none }
        ({ agents := agents1, entries := s.entries ++ [entry] }, .ok entry)

/-- LedgerManager.record_payment from src/agentpay/ledger_manager.py.
The four mutations (payer balance, payee balance, payer total_spent,
payee total_earned) are applied in source order as in-place registry
updates, which reproduces the Python aliasing behaviour when the two ids
coincide. -/
def LedgerState.record_payment (s : LedgerState) (from_agent_id to_agent_id : String)
    (amount : Int) (reference_id : String) (memo : Option String) :
    LedgerState × Except LedgerError (List LedgerEntry) :=
  if amount ≤ 0 then (s, .error .invalidAmount)
  else
    match s.agents.get_agent from_agent_id with
    | none => (s, .error (.payerNotFound from_agent_id))
    | some from_agent =>
      match s.agents.get_agent to_agent_id with
      | none => (s, .error (.payeeNotFound to_agent_id))
      | some _ =>
        if from_agent.wallet.balance < amount then
          (s, .error (.insufficientFunds from_agent_id))
        else
          let agents1 := modifyKey s.agents from_agent_id
            (fun a => { a with wallet := { a.wallet with balance := a.wallet.balance - amount } })
          let agents2 := modifyKey agents1 to_agent_id
            (fun a => { a with wallet := { a.wallet with balance := a.wallet.balance + amount } })
          let agents3 := modifyKey agents2 from_agent_id
            (fun a => { a with total_spent := a.total_spent + amount })
          let agents4 := modifyKey agents3 to_agent_id
            (fun a => { a with total_earned := a.total_earned + amount })
          let fromBal := AgentRegistry.balanceOf agents4 from_agent_id
          let toBal := AgentRegistry.balanceOf agents4 to_agent_id
          if fromBal < 0 ∨ toBal < 0 then
            ({ s with agents := agents4 }, .error .validationError)
          else
            let debit_entry : LedgerEntry :=
              { agent_id := from_agent_id, delta_amount := -amount, entry_type := .payment,
                reference_id := reference_id, balance_after := fromBal, memo := memo,
                transaction_type := some .expense, counterparty_id := some to_agent_id }
            let credit_entry : LedgerEntry :=
              { agent_id := to_agent_id, delta_amount := amount, entry_type := .payment,
                reference_id := reference_id, balance_after := toBal, memo := memo,
                transaction_type := some .income, counterparty_id := some from_agent_id }
            ({ agents := agents4, entries := s.entries ++ [debit_entry, credit_entry] },
              .ok [debit_entry, credit_entry])

/-- LedgerManager.record_escrow_lock from src/agentpay/ledger_manager.py:
balance decreases, hold increases, single entry with delta -amount. -/
def LedgerState.record_escrow_lock (s : LedgerState) (agent_id : String) (amount : Int)
    (reference_id : String) (memo : Option String) :
    LedgerState × Except LedgerError LedgerEntry :=
  if amount ≤ 0 then (s, .error .invalidAmount)
  else
    match s.agents.get_agent agent_id with
    | none => (s, .error (.agentNotFound agent_id))
    | some agent =>
      if agent.wallet.balance < amount then (s, .error (.insufficientFunds agent_id))
      else
        let agents1 := modifyKey s.agents agent_id
          (fun a => { a with wallet := { balance := a.wallet.balance - amount,
                                         hold := a.wallet.hold + amount } })
        let bal := AgentRegistry.balanceOf agents1 agent_id
        if bal < 0 then ({ s with agents := agents1 }, .error .validationError)
        else
          let entry : LedgerEntry :=
            { agent_id := agent_id, delta_amount := -amount, entry_type := .escrow_lock,
              reference_id := reference_id, balance_after := bal, memo := memo,
              transaction_type := none, counterparty_id := none }
          ({ agents := agents1, entries := s.entries ++ [entry] }, .ok entry)

/-- LedgerManager.record_escrow_release from src/agentpay/ledger_manager.py:
payer hold decreases, payee balance increases, two entries. -/
def LedgerState.record_escrow_release (s : LedgerState) (from_agent_id to_agent_id : String)
    (amount : Int) (reference_id : String) (memo : Option String) :
    LedgerState × Except LedgerError (List LedgerEntry) :=
  if amount ≤ 0 then (s, .error .invalidAmount)
  else
    match s.agents.get_agent from_agent_id with
    | none => (s, .error (.payerNotFound from_agent_id))
    | some from_agent =>
      match s.agents.get_agent to_agent_id with
      | none => (s, .error (.payeeNotFound to_agent_id))
      | some _ =>
        if from_agent.wallet.hold < amount then
          (s, .error (.insufficientHold from_agent_id))
        else
          let agents1 := modifyKey s.agents from_agent_id
            (fun a => { a with wallet := { a.wallet with hold := a.wallet.hold - amount } })
          let agents2 := modifyKey agents1 to_agent_id
            (fun a => { a with wallet := { a.wallet with balance := a.wallet.balance + amount } })
          let agents3 := modifyKey agents2 from_agent_id
            (fun a => { a with total_spent := a.total_spent + amount })
          let agents4 := modifyKey agents3 to_agent_id
            (fun a => { a with total_earned := a.total_earned + amount })
          let fromBal := AgentRegistry.balanceOf agents4 from_agent_id
          let toBal := AgentRegistry.balanceOf agents4 to_agent_id
          if fromBal < 0 ∨ toBal < 0 then
            ({ s with agents := agents4 }, .error .validationError)
          else
            let payer_entry : LedgerEntry :=
              { agent_id := from_agent_id, delta_amount := -amount,
                entry_type := .escrow_release, reference_id := reference_id,
                balance_after := fromBal, memo := memo,
                transaction_type := some .expense, counterparty_id := some to_agent_id }
            let payee_entry : LedgerEntry :=
              { agent_id := to_agent_id, delta_amount := amount,
                entry_type := .escrow_release, reference_id := reference_id,
                balance_after := toBal, memo := memo,
                transaction_type := some .income, counterparty_id := some from_agent_id }
            ({ agents := agents4, entries := s.entries ++ [payer_entry, payee_entry] },
              .ok [payer_entry, payee_entry])

/-- LedgerManager.record_escrow_cancel from src/agentpay/ledger_manager.py:
hold decreases, balance increases, single entry with delta +amount. -/
def LedgerState.record_escrow_cancel (s : LedgerState) (agent_id : String) (amount : Int)
    (reference_id : String) (memo : Option String) :
    LedgerState × Except LedgerError LedgerEntry :=
  if amount ≤ 0 then (s, .error .invalidAmount)
  else
    match s.agents.get_agent agent_id with
    | none => (s, .error (.agentNotFound agent_id))
    | some agent =>
      if agent.wallet.hold < amount then (s, .error (.insufficientHold agent_id))
      else
        let agents1 := modifyKey s.agents agent_id
          (fun a => { a with wallet := { balance := a.wallet.balance + amount,
                                         hold := a.wallet.hold - amount } })
        let bal := AgentRegistry.balanceOf agents1 agent_id
        if bal < 0 then ({ s with agents := agents1 }, .error .validationError)
        else
          let entry : LedgerEntry :=
            { agent_id := agent_id, delta_amount := amount, entry_type := .escrow_cancel,
              reference_id := reference_id, balance_after := bal, memo := memo,
              transaction_type := none, counterparty_id := none }
          ({ agents := agents1, entries := s.entries ++ [entry] }, .ok entry)

/-- LedgerManager.get_entries_by_reference. -/
def LedgerState.get_entries_by_reference (s : LedgerState) (reference_id : String) :
    List LedgerEntry :=
  s.entries.filter (fun e => decide (e.reference_id = reference_id))

/-- Sum of delta_amount over a reference group. -/
def LedgerState.refSum (s : LedgerState) (reference_id : String) : Int :=
  ((s.get_entries_by_reference reference_id).map (fun e => e.delta_amount)).sum

/-- LedgerManager.verify_double_entry. -/
def LedgerState.verify_double_entry (s : LedgerState) (reference_id : String) : Bool :=
  let entries := s.get_entries_by_reference reference_id
  if entries.isEmpty then true
  else if entries.any (fun e => e.entry_type = .top_up || e.entry_type = .withdrawal) then true
  else decide ((entries.map (fun e => e.delta_amount)).sum = 0)

/-- One invocation of a core LedgerManager mutating operation with
arbitrary arguments. -/
inductive LedgerOp
  | topUp (agent_id : String) (amount : Int) (reference_id : String) (memo : Option String)
  | payment (from_agent_id to_agent_id : String) (amount : Int)
      (reference_id : String) (memo : Option String)
  | escrowLock (agent_id : String) (amount : Int) (reference_id : String) (memo : Option String)
  | escrowRelease (from_agent_id to_agent_id : String) (amount : Int)
      (reference_id : String) (memo : Option String)
  | escrowCancel (agent_id : String) (amount : Int) (reference_id : String) (memo : Option String)

/-- The state reached after one operation, whether it succeeds or raises. -/
def LedgerState.applyOp (s : LedgerState) (op : LedgerOp) : LedgerState :=
  match op with
  | .topUp a amt ref m => (s.record_top_up a amt ref m).1
  | .payment f t amt ref m => (s.record_payment f t amt ref m).1
  | .escrowLock a amt ref m => (s.record_escrow_lock a amt ref m).1
  | .escrowRelease f t amt ref m => (s.record_escrow_release f t amt ref m).1
  | .escrowCancel a amt ref m => (s.record_escrow_cancel a amt ref m).1

/-- The state reached after a sequence of operations. -/
def LedgerState.applyOps (s : LedgerState) (ops : List LedgerOp) : LedgerState :=
  ops.foldl LedgerState.applyOp s

/-- PaymentStatus from src/agentpay/models/payment.py. -/
inductive PaymentStatus
  | requires_confirmation
  | completed
  | failed_policy
  | failed_funds
  | cancelled
  | requires_approval
deriving DecidableEq

/-- The .value string of each PaymentStatus member. -/
def PaymentStatus.value : PaymentStatus → String
  | .requires_confirmation => "requires_confirmation"
  | .completed => "completed"
  | .failed_policy => "failed_policy"
  | .failed_funds => "failed_funds"
  | .cancelled => "cancelled"
  | .requires_approval => "requires_approval"

/-- PaymentIntent from src/agentpay/models/payment.py. The created_at
timestamp and the metadata dict are omitted (no claim mentions them);
completed_at is an abstract Nat tick. -/
structure PaymentIntent where
  intent_id : String
  from_agent_id : String
  to_agent_id : String
  amount : Int
  status : PaymentStatus
  idempotency_key : Option String
  memo : Option String
  completed_at : Option Nat
  failure_reason : Option String
deriving DecidableEq

/-- Whether the first list appears at the head of the second. -/
def headMatches : List Char → List Char → Bool
  | [], _ => true
  | _ :: _, [] => false
  | a :: as, b :: bs => a = b && headMatches as bs

/-- Whether the first list occurs contiguously anywhere in the second. -/
def hasSegment (needle : List Char) : List Char → Bool
  | [] => headMatches needle []
  | b :: bs => headMatches needle (b :: bs) || hasSegment needle bs

/-- Python substring test: needle in hay. -/
def strContains (hay needle : String) : Bool :=
  hasSegment needle.data hay.data

/-- PaymentIntent.mark_completed from src/agentpay/models/payment.py. -/
def PaymentIntent.mark_completed (i : PaymentIntent) (now : Nat) : PaymentIntent :=
  { i with status := .completed, completed_at := some now }

/-- PaymentIntent.mark_failed from src/agentpay/models/payment.py: the
POLICY / ALLOWED / PAUSED substring checks run before the FUNDS check. -/
def PaymentIntent.mark_failed (i : PaymentIntent) (reason : String) (now : Nat) :
    PaymentIntent :=
  let status :=
    if strContains reason "POLICY" || strContains reason "ALLOWED"
        || strContains reason "PAUSED" then
      PaymentStatus.failed_policy
    else if strContains reason "FUNDS" then PaymentStatus.failed_funds
    else PaymentStatus.failed_policy
  { i with status := status, failure_reason := some reason, completed_at := some now }

/-- PaymentIntent.mark_cancelled from src/agentpay/models/payment.py. -/
def PaymentIntent.mark_cancelled (i : PaymentIntent) (now : Nat) : PaymentIntent :=
  { i with status := .cancelled, completed_at := some now }

/-- PaymentResult from src/agentpay/payment_engine.py. -/
structure PaymentResult where
  success : Bool
  payment_intent : PaymentIntent
  error_code : Option String
  error_message : Option String
deriving DecidableEq

/-- State of the PaymentEngine: the shared registry and ledger, plus the
idempotency dict keyed by idempotency_key. -/
structure EngineState where
  ledger : LedgerState
  processed_intents : List (String × PaymentIntent)
deriving DecidableEq

/-- PaymentEngine._get_error_message from src/agentpay/payment_engine.py. -/
def get_error_message (error_code : String) : String :=
  if error_code = "AGENT_PAUSED" then "Payment blocked: agent is paused"
  else if error_code = "RECIPIENT_NOT_ALLOWED" then
    "Payment blocked: recipient not in allowlist"
  else if error_code = "AMOUNT_EXCEEDS_LIMIT" then
    "Payment blocked: amount exceeds per-transaction limit"
  else if error_code = "INSUFFICIENT_FUNDS" then "Payment failed: insufficient balance"
  else if error_code = "PAYER_NOT_FOUND" then "Payment failed: payer agent does not exist"
  else if error_code = "PAYEE_NOT_FOUND" then "Payment failed: payee agent does not exist"
  else "Payment failed: " ++ error_code

/-- Python truthiness of the idempotency key: set and non-empty. -/
def keyTruthy : Option String → Bool
  | none => false
  | some k => decide (k ≠ "")

/-- PaymentEngine._failed_result from src/agentpay/payment_engine.py:
caches the failed intent when the key is truthy, then wraps it. -/
def EngineState.failed_result (s : EngineState) (payment_intent : PaymentIntent)
    (error_code error_message : String) : EngineState × PaymentResult :=
  let s' :=
    match payment_intent.idempotency_key with
    | none => s
    | some k =>
      if k = "" then s
      else { s with processed_intents := setKey s.processed_intents k payment_intent }
  (s', { success := false, payment_intent := payment_intent,
         error_code := some error_code, error_message := some error_message })

/-- PaymentEngine.execute_payment from src/agentpay/payment_engine.py. -/
def EngineState.execute_payment (s : EngineState) (payment_intent : PaymentIntent)
    (now : Nat) : EngineState × PaymentResult :=
  let cached : Option PaymentIntent :=
    match payment_intent.idempotency_key with
    | none => none
    | some k => if k = "" then none else lookupKey s.processed_intents k
  match cached with
  | some existing =>
    (s, { success := decide (existing.status = .completed), payment_intent := existing,
          error_code := existing.failure_reason,
          error_message := some ("Already processed: " ++ existing.status.value) })
  | none =>
    match s.ledger.agents.get_agent payment_intent.from_agent_id with
    | none =>
      let i' := payment_intent.mark_failed "PAYER_NOT_FOUND" now
      s.failed_result i' "PAYER_NOT_FOUND"
        ("Payer agent " ++ payment_intent.from_agent_id ++ " not found")
    | some from_agent =>
      match s.ledger.agents.get_agent payment_intent.to_agent_id with
      | none =>
        let i' := payment_intent.mark_failed "PAYEE_NOT_FOUND" now
        s.failed_result i' "PAYEE_NOT_FOUND"
          ("Payee agent " ++ payment_intent.to_agent_id ++ " not found")
      | some _ =>
        match from_agent.can_pay payment_intent.amount payment_intent.to_agent_id with
        | (false, reason) =>
          let r := reason.getD ""
          let i' := payment_intent.mark_failed r now
          s.failed_result i' r (get_error_message r)
        | (true, _) =>
          match s.ledger.record_payment payment_intent.from_agent_id
              payment_intent.to_agent_id payment_intent.amount
              payment_intent.intent_id payment_intent.memo with
          | (ledger', .ok _) =>
            let i' := payment_intent.mark_completed now
            let processed' :=
              match payment_intent.idempotency_key with
              | none => s.processed_intents
              | some k => if k = "" then s.processed_intents
                          else setKey s.processed_intents k i'
            ({ ledger := ledger', processed_intents := processed' },
              { success := true, payment_intent := i',
                error_code := none, error_message := none })
          | (ledger', .error _) =>
            let i' := payment_intent.mark_failed "EXECUTION_ERROR" now
            EngineState.failed_result { s with ledger := ledger' } i'
              "EXECUTION_ERROR" "Payment execution failed"

/-- PaymentEngine.get_payment_status from src/agentpay/payment_engine.py:
scans the idempotency dict values in insertion order. -/
def EngineState.get_payment_status (s : EngineState) (intent_id : String) :
    Option PaymentIntent :=
  (s.processed_intents.find? (fun p => decide (p.2.intent_id = intent_id))).map
    (fun p => p.2)

/-- EscrowStatus from src/agentpay/escrow_manager.py. -/
inductive EscrowStatus
  | locked
  | released
  | cancelled
deriving DecidableEq

/-- The .value string of each EscrowStatus member. -/
def EscrowStatus.value : EscrowStatus → String
  | .locked => "locked"
  | .released => "released"
  | .cancelled => "cancelled"

/-- Escrow from src/agentpay/escrow_manager.py. created_at is omitted;
completed_at is an abstract Nat tick. -/
structure Escrow where
  escrow_id : String
  from_agent_id : String
  to_agent_id : String
  amount : Int
  status : EscrowStatus
  completed_at : Option Nat
  memo : Option String
deriving DecidableEq

/-- Escrow.mark_released from src/agentpay/escrow_manager.py. -/
def Escrow.mark_released (e : Escrow) (now : Nat) : Escrow :=
  { e with status := .released, completed_at := some now }

/-- Escrow.mark_cancelled from src/agentpay/escrow_manager.py. -/
def Escrow.mark_cancelled (e : Escrow) (now : Nat) : Escrow :=
  { e with status := .cancelled, completed_at := some now }

/-- EscrowResult from src/agentpay/escrow_manager.py. -/
structure EscrowResult where
  success : Bool
  escrow : Escrow
  error_code : Option String
  error_message : Option String
deriving DecidableEq

/-- State of the EscrowManager: the shared registry and ledger plus the
escrow dict keyed by escrow_id. -/
structure EscrowManagerState where
  ledger : LedgerState
  escrows : List (String × Escrow)
deriving DecidableEq

/-- EscrowManager.create_escrow from src/agentpay/escrow_manager.py.
The uuid4 escrow_id is modelled as the new_escrow_id parameter. Pydantic
validates amount > 0 at every Escrow construction; a failed validation is
an uncaught ValidationError, modelled as Except.error () with the state at
the raise point (no mutation has happened at any construction site). -/
def EscrowManagerState.create_escrow (s : EscrowManagerState)
    (from_agent_id to_agent_id : String) (amount : Int) (memo : Option String)
    (new_escrow_id : String) : EscrowManagerState × Except Unit EscrowResult :=
  match s.ledger.agents.get_agent from_agent_id with
  | none =>
    if amount ≤ 0 then (s, .error ())
    else
      let escrow : Escrow :=
        { escrow_id := new_escrow_id,
          from_agent_id := from_agent_id, to_agent_id := to_agent_id,
          amount := amount, status := .locked, completed_at := none, memo := none }
      (s, .ok { success := false, escrow := escrow,
                error_code := some "PAYER_NOT_FOUND",
                error_message := some ("Payer agent " ++ from_agent_id ++ " not found") })
  | some from_agent =>
    match s.ledger.agents.get_agent to_agent_id with
    | none =>
      if amount ≤ 0 then (s, .error ())
      else
        let escrow : Escrow :=
          { escrow_id := new_escrow_id,
            from_agent_id := from_agent_id, to_agent_id := to_agent_id,
            amount := amount, status := .locked, completed_at := none, memo := none }
        (s, .ok { success := false, escrow := escrow,
                  error_code := some "RECIPIENT_NOT_FOUND",
                  error_message := some ("Recipient agent " ++ to_agent_id ++ " not found") })
    | some _ =>
      if ¬ from_agent.wallet.can_hold amount then
        if amount ≤ 0 then (s, .error ())
        else
          let escrow : Escrow :=
            { escrow_id := new_escrow_id,
              from_agent_id := from_agent_id, to_agent_id := to_agent_id,
              amount := amount, status := .locked, completed_at := none, memo := none }
          (s, .ok { success := false, escrow := escrow,
                    error_code := some "INSUFFICIENT_FUNDS",
                    error_message := some "Insufficient balance" })
      else if amount ≤ 0 then (s, .error ())
      else
        let escrow : Escrow :=
          { escrow_id := new_escrow_id,
            from_agent_id := from_agent_id, to_agent_id := to_agent_id,
            amount := amount, status := .locked, completed_at := none, memo := memo }
        match s.ledger.record_escrow_lock from_agent_id amount escrow.escrow_id memo with
        | (ledger', .ok _) =>
          ({ ledger := ledger',
             escrows := setKey s.escrows escrow.escrow_id escrow },
            .ok { success := true, escrow := escrow,
                  error_code := none, error_message := none })
        | (ledger', .error _) =>
          ({ s with ledger := ledger' },
            .ok { success := false, escrow := escrow,
                  error_code := some "EXECUTION_ERROR",
                  error_message := some "Escrow creation failed" })

/-- EscrowManager.release_escrow from src/agentpay/escrow_manager.py.
The ESCROW_NOT_FOUND branch constructs a dummy Escrow with amount=0, which
fails the pydantic gt=0 validation and so raises (modelled as
Except.error ()). -/
def EscrowManagerState.release_escrow (s : EscrowManagerState) (escrow_id : String)
    (now : Nat) : EscrowManagerState × Except Unit EscrowResult :=
  match lookupKey s.escrows escrow_id with
  | none => (s, .error ())
  | some escrow =>
    if escrow.status ≠ .locked then
      (s, .ok { success := false, escrow := escrow,
                error_code := some "ESCROW_NOT_LOCKED",
                error_message := some ("Escrow is " ++ escrow.status.value
                  ++ ", cannot release") })
    else
      match s.ledger.record_escrow_release escrow.from_agent_id escrow.to_agent_id
          escrow.amount escrow.escrow_id escrow.memo with
      | (ledger', .ok _) =>
        let escrow' := escrow.mark_released now
        ({ ledger := ledger',
           escrows := setKey s.escrows escrow_id escrow' },
          .ok { success := true, escrow := escrow',
                error_code := none, error_message := none })
      | (ledger', .error _) =>
        ({ s with ledger := ledger' },
          .ok { success := false, escrow := escrow,
                error_code := some "EXECUTION_ERROR",
                error_message := some "Escrow release failed" })

/-- EscrowManager.cancel_escrow from src/agentpay/escrow_manager.py. -/
def EscrowManagerState.cancel_escrow (s : EscrowManagerState) (escrow_id : String)
    (now : Nat) : EscrowManagerState × Except Unit EscrowResult :=
  match lookupKey s.escrows escrow_id with
  | none => (s, .error ())
  | some escrow =>
    if escrow.status ≠ .locked then
      (s, .ok { success := false, escrow := escrow,
                error_code := some "ESCROW_NOT_LOCKED",
                error_message := some ("Escrow is " ++ escrow.status.value
                  ++ ", cannot cancel") })
    else
      match s.ledger.record_escrow_cancel escrow.from_agent_id escrow.amount
          escrow.escrow_id escrow.memo with
      | (ledger', .ok _) =>
        let escrow' := escrow.mark_cancelled now
        ({ ledger := ledger',
           escrows := setKey s.escrows escrow_id escrow' },
          .ok { success := true, escrow := escrow',
                error_code := none, error_message := none })
      | (ledger', .error _) =>
        ({ s with ledger := ledger' },
          .ok { success := false, escrow := escrow,
                error_code := some "EXECUTION_ERROR",
                error_message := some "Escrow cancellation failed" })

/-- A policy with no restrictions (all pydantic defaults). -/
def openPolicy : Policy :=
  { max_per_transaction := none, daily_spend_cap := none,
    require_human_approval_over := none, allowlist := none, paused := false }

/-- A freshly registered agent with the given balance and hold. -/
def mkAgent (id : String) (bal hold : Int) : Agent :=
  { agent_id := id, wallet := { balance := bal, hold := hold },
    policy := openPolicy, total_earned := 0, total_spent := 0 }

/-- A two-agent registry with an empty ledger: alice holds 100, bob 0. -/
def exState : LedgerState :=
  { agents := [("alice", mkAgent "alice" 100 0), ("bob", mkAgent "bob" 0 0)],
    entries := [] }

/-! ### Association-list lemmas -/

theorem lookupKey_modifyKey_self {α : Type} (r : List (String × α)) (k : String)
    (f : α → α) : lookupKey (modifyKey r k f) k = (lookupKey r k).map f := by
  induction r with
  | nil => simp [lookupKey, modifyKey]
  | cons p r ih =>
    by_cases h : p.1 = k
    · simp [lookupKey, modifyKey, h]
    · simp [lookupKey, modifyKey, h, ih]

theorem lookupKey_modifyKey_ne {α : Type} (r : List (String × α)) (k k' : String)
    (f : α → α) (h : k' ≠ k) :
    lookupKey (modifyKey r k f) k' = lookupKey r k' := by
  induction r with
  | nil => simp [lookupKey, modifyKey]
  | cons p r ih =>
    by_cases hp : p.1 = k
    · have hp' : p.1 ≠ k' := by rw [hp]; exact Ne.symm h
      simp [lookupKey, modifyKey, hp, hp', Ne.symm h]
    · simp only [modifyKey, if_neg hp]
      by_cases hp' : p.1 = k'
      · simp [lookupKey, hp']
      · simp [lookupKey, hp', ih]

theorem lookupKey_setKey_self {α : Type} (r : List (String × α)) (k : String) (v : α) :
    lookupKey (setKey r k v) k = some v := by
  induction r with
  | nil => simp [lookupKey, setKey]
  | cons p r ih =>
    by_cases h : p.1 = k
    · simp [lookupKey, setKey, h]
    · simp [lookupKey, setKey, h, ih]

theorem lookupKey_setKey_ne {α : Type} (r : List (String × α)) (k k' : String) (v : α)
    (h : k' ≠ k) : lookupKey (setKey r k v) k' = lookupKey r k' := by
  induction r with
  | nil => simp [lookupKey, setKey, Ne.symm h]
  | cons p r ih =>
    by_cases hp : p.1 = k
    · simp [lookupKey, setKey, hp, Ne.symm h]
    · simp [lookupKey, setKey, hp, ih]

theorem lookupKey_mem {α : Type} {r : List (String × α)} {k : String} {a : α}
    (h : lookupKey r k = some a) : (k, a) ∈ r := by
  induction r with
  | nil => simp [lookupKey] at h
  | cons p r ih =>
    by_cases hp : p.1 = k
    · simp [lookupKey, hp] at h
      have hpk : p = (k, a) := by cases p; simp_all
      rw [← hpk]
      exact List.mem_cons_self _ _
    · simp [lookupKey, hp] at h
      exact List.mem_cons_of_mem _ (ih h)

theorem mem_modifyKey {α : Type} {r : List (String × α)} {k : String} {f : α → α}
    {p : String × α} (h : p ∈ modifyKey r k f) :
    p ∈ r ∨ ∃ a, lookupKey r k = some a ∧ p = (k, f a) := by
  induction r with
  | nil => simp [modifyKey] at h
  | cons q r ih =>
    by_cases hq : q.1 = k
    · simp only [modifyKey, if_pos hq] at h
      rcases List.mem_cons.mp h with h1 | h1
      · right
        exact ⟨q.2, by simp [lookupKey, hq], by simp [h1, hq]⟩
      · exact Or.inl (List.mem_cons_of_mem _ h1)
    · simp only [modifyKey, if_neg hq] at h
      rcases List.mem_cons.mp h with h1 | h1
      · exact Or.inl (List.mem_cons.mpr (Or.inl h1))
      · rcases ih h1 with h2 | ⟨a, ha, hp⟩
        · exact Or.inl (List.mem_cons_of_mem _ h2)
        · exact Or.inr ⟨a, by simp [lookupKey, hq, ha], hp⟩

/-! ### Well-formedness: non-negative balances and holds -/

/-- Every stored agent has non-negative balance and hold. -/
def wfRegistry (r : AgentRegistry) : Prop :=
  ∀ p ∈ r, 0 ≤ p.2.wallet.balance ∧ 0 ≤ p.2.wallet.hold

/-- Well-formed ledger state. -/
def wfState (s : LedgerState) : Prop := wfRegistry s.agents

theorem wfRegistry_lookup {r : AgentRegistry} {k : String} {a : Agent}
    (hwf : wfRegistry r) (h : AgentRegistry.get_agent r k = some a) :
    0 ≤ a.wallet.balance ∧ 0 ≤ a.wallet.hold :=
  hwf (k, a) (lookupKey_mem h)

theorem wfRegistry_modifyKey {r : AgentRegistry} {k : String} {f : Agent → Agent}
    (hwf : wfRegistry r)
    (hf : ∀ a, lookupKey r k = some a →
      0 ≤ (f a).wallet.balance ∧ 0 ≤ (f a).wallet.hold) :
    wfRegistry (modifyKey r k f) := by
  intro p hp
  rcases mem_modifyKey hp with h | ⟨a, ha, rfl⟩
  · exact hwf p h
  · exact hf a ha

/-! ### Concrete fixtures used by witnesses and counterexamples -/

/-- A payment intent without idempotency key. -/
def baseIntent : PaymentIntent :=
  { intent_id := "i1", from_agent_id := "alice", to_agent_id := "bob",
    amount := 10, status := .requires_confirmation, idempotency_key := none,
    memo := none, completed_at := none, failure_reason := none }

/-- Engine over the two-agent registry with empty caches. -/
def exEngine : EngineState := { ledger := exState, processed_intents := [] }

/-- Escrow manager over the two-agent registry with no escrows. -/
def exEscrowMgr : EscrowManagerState := { ledger := exState, escrows := [] }

/-- State after creating escrow e1 (alice to bob, 5) and releasing it at tick 7. -/
def exReleasedMgr : EscrowManagerState :=
  ((exEscrowMgr.create_escrow "alice" "bob" 5 none "e1").1.release_escrow "e1" 7).1

/-- The escrow stored in exReleasedMgr. -/
def relEscrow : Escrow :=
  { escrow_id := "e1", from_agent_id := "alice", to_agent_id := "bob",
    amount := 5, status := .released, completed_at := some 7, memo := none }

/-- An agent that is paused and has an empty wallet. -/
def pausedAgent : Agent :=
  { agent_id := "p", wallet := { balance := 0, hold := 0 },
    policy := { openPolicy with paused := true }, total_earned := 0, total_spent := 0 }

/-! ### Claim theorems -/

/-- Claim C8: Agent.can_pay evaluates paused, allowlist, per-transaction
limit and balance sufficiency in that order, returns the error code of the
first failing check without consulting later ones, and returns (true, none)
when all four pass. -/
theorem can_pay_check_order (a : Agent) (amount : Int) (recipient_id : String) :
    (a.policy.paused = true →
      a.can_pay amount recipient_id = (false, some "AGENT_PAUSED")) ∧
    (a.policy.paused = false → a.policy.is_agent_allowed recipient_id = false →
      a.can_pay amount recipient_id = (false, some "RECIPIENT_NOT_ALLOWED")) ∧
    (a.policy.paused = false → a.policy.is_agent_allowed recipient_id = true →
      a.policy.is_amount_allowed amount = false →
      a.can_pay amount recipient_id = (false, some "AMOUNT_EXCEEDS_LIMIT")) ∧
    (a.policy.paused = false → a.policy.is_agent_allowed recipient_id = true →
      a.policy.is_amount_allowed amount = true → a.wallet.balance < amount →
      a.can_pay amount recipient_id = (false, some "INSUFFICIENT_FUNDS")) ∧
    (a.policy.paused = false → a.policy.is_agent_allowed recipient_id = true →
      a.policy.is_amount_allowed amount = true → amount ≤ a.wallet.balance →
      a.can_pay amount recipient_id = (true, none)) := by
  unfold Agent.can_pay Wallet.can_spend
  refine ⟨?_, ?_, ?_, ?_, ?_⟩ <;> intros <;> simp_all

/-- Witness for C8: a paused agent with an empty wallet is rejected with
AGENT_PAUSED, not INSUFFICIENT_FUNDS. -/
theorem can_pay_check_order_witness :
    pausedAgent.can_pay 5 "r" = (false, some "AGENT_PAUSED") :=
  (can_pay_check_order pausedAgent 5 "r").1 (by decide)

/-- Claim C9 (amended): mark_failed yields FAILED_FUNDS iff the reason
contains the substring FUNDS and contains none of POLICY, ALLOWED, PAUSED
(the policy keywords are checked first); otherwise FAILED_POLICY. It always
records the reason and stamps completed_at. -/
theorem mark_failed_classification (i : PaymentIntent) (reason : String) (now : Nat) :
    ((i.mark_failed reason now).status = PaymentStatus.failed_funds ↔
      (strContains reason "FUNDS" = true ∧ strContains reason "POLICY" = false ∧
       strContains reason "ALLOWED" = false ∧ strContains reason "PAUSED" = false)) ∧
    ((i.mark_failed reason now).status = PaymentStatus.failed_funds ∨
      (i.mark_failed reason now).status = PaymentStatus.failed_policy) ∧
    (i.mark_failed reason now).failure_reason = some reason ∧
    (i.mark_failed reason now).completed_at = some now := by
  unfold PaymentIntent.mark_failed
  rcases hP : strContains reason "POLICY" <;> rcases hA : strContains reason "ALLOWED" <;>
    rcases hU : strContains reason "PAUSED" <;> rcases hF : strContains reason "FUNDS" <;>
      simp [hP, hA, hU, hF]

/-- Counterexample for C9 as stated: the reason FUNDS_NOT_ALLOWED contains
the substring FUNDS yet is classified FAILED_POLICY, because the ALLOWED
keyword check runs first. -/
theorem mark_failed_funds_substring_not_decisive :
    strContains "FUNDS_NOT_ALLOWED" "FUNDS" = true ∧
    (baseIntent.mark_failed "FUNDS_NOT_ALLOWED" 0).status ≠ PaymentStatus.failed_funds ∧
    (baseIntent.mark_failed "FUNDS_NOT_ALLOWED" 0).status = PaymentStatus.failed_policy := by
  decide

/-- Claim C7: releasing or cancelling a stored escrow whose status is not
LOCKED fails with ESCROW_NOT_LOCKED and changes nothing: the whole manager
state (wallets, ledger entries, escrow map with its status and completed_at)
is returned unchanged. -/
theorem escrow_not_locked_rejected (s : EscrowManagerState) (escrow_id : String)
    (esc : Escrow) (now : Nat) (hm : lookupKey s.escrows escrow_id = some esc)
    (hst : esc.status ≠ EscrowStatus.locked) :
    s.release_escrow escrow_id now =
      (s, .ok { success := false, escrow := esc,
                error_code := some "ESCROW_NOT_LOCKED",
                error_message := some ("Escrow is " ++ esc.status.value
                  ++ ", cannot release") }) ∧
    s.cancel_escrow escrow_id now =
      (s, .ok { success := false, escrow := esc,
                error_code := some "ESCROW_NOT_LOCKED",
                error_message := some ("Escrow is " ++ esc.status.value
                  ++ ", cannot cancel") }) := by
  unfold EscrowManagerState.release_escrow EscrowManagerState.cancel_escrow
  rw [hm]
  simp [hst]

/-- Witness for C7: the second release of escrow e1 (already RELEASED)
returns ESCROW_NOT_LOCKED and leaves the state untouched. -/
theorem escrow_not_locked_rejected_witness :
    (exReleasedMgr.release_escrow "e1" 9).1 = exReleasedMgr ∧
    (exReleasedMgr.cancel_escrow "e1" 9).1 = exReleasedMgr := by
  have h := escrow_not_locked_rejected exReleasedMgr "e1" relEscrow 9
    (by decide) (by decide)
  rw [h.1, h.2]
  exact ⟨rfl, rfl⟩

/-- Claim C2: record_payment on two distinct registered agents, with a
positive amount not exceeding the payer balance, debits the payer, credits
the payee, adds the amount to the payer total_spent and the payee
total_earned, and appends exactly two PAYMENT entries sharing the reference
id: an EXPENSE debit with counterparty the payee and an INCOME credit with
counterparty the payer. The payee-balance hypothesis reflects pydantic
validation at registration (balances start non-negative and stay so). -/
theorem record_payment_spec (s : LedgerState) (from_id to_id ref : String)
    (memo : Option String) (amount : Int) (fa ta : Agent)
    (hf : s.agents.get_agent from_id = some fa)
    (ht : s.agents.get_agent to_id = some ta)
    (hne : from_id ≠ to_id) (hpos : 0 < amount)
    (hbal : amount ≤ fa.wallet.balance) (htb : 0 ≤ ta.wallet.balance) :
    (s.record_payment from_id to_id amount ref memo).2 =
      .ok [ { agent_id := from_id, delta_amount := -amount, entry_type := .payment,
              reference_id := ref, balance_after := fa.wallet.balance - amount,
              memo := memo, transaction_type := some .expense,
              counterparty_id := some to_id },
            { agent_id := to_id, delta_amount := amount, entry_type := .payment,
              reference_id := ref, balance_after := ta.wallet.balance + amount,
              memo := memo, transaction_type := some .income,
              counterparty_id := some from_id } ] ∧
    (s.record_payment from_id to_id amount ref memo).1.agents.get_agent from_id =
      some { fa with wallet := { fa.wallet with balance := fa.wallet.balance - amount },
                     total_spent := fa.total_spent + amount } ∧
    (s.record_payment from_id to_id amount ref memo).1.agents.get_agent to_id =
      some { ta with wallet := { ta.wallet with balance := ta.wallet.balance + amount },
                     total_earned := ta.total_earned + amount } ∧
    (s.record_payment from_id to_id amount ref memo).1.entries =
      s.entries ++
        [ { agent_id := from_id, delta_amount := -amount, entry_type := .payment,
            reference_id := ref, balance_after := fa.wallet.balance - amount,
            memo := memo, transaction_type := some .expense,
            counterparty_id := some to_id },
          { agent_id := to_id, delta_amount := amount, entry_type := .payment,
            reference_id := ref, balance_after := ta.wallet.balance + amount,
            memo := memo, transaction_type := some .income,
            counterparty_id := some from_id } ] := by
  have hne' : to_id ≠ from_id := Ne.symm hne
  have hf' : lookupKey s.agents from_id = some fa := hf
  have ht' : lookupKey s.agents to_id = some ta := ht
  have h1 : ¬ amount ≤ 0 := by omega
  have h2 : ¬ fa.wallet.balance < amount := by omega
  simp only [LedgerState.record_payment, AgentRegistry.balanceOf,
    AgentRegistry.get_agent, hf', ht', h1, h2, lookupKey_modifyKey_self,
    lookupKey_modifyKey_ne _ _ _ _ hne, lookupKey_modifyKey_ne _ _ _ _ hne',
    Option.map_some', ite_false, ite_true, if_false, if_true]
  split_ifs with hv
  · exfalso
    rcases hv with hv | hv <;> omega
  · refine ⟨rfl, ?_, ?_, rfl⟩
    · simp only [lookupKey_modifyKey_self, lookupKey_modifyKey_ne _ _ _ _ hne,
        lookupKey_modifyKey_ne _ _ _ _ hne', hf', Option.map_some']
    · simp only [lookupKey_modifyKey_self, lookupKey_modifyKey_ne _ _ _ _ hne,
        lookupKey_modifyKey_ne _ _ _ _ hne', ht', Option.map_some']

/-- Witness for C2: paying 30 from alice (balance 100) to bob (balance 0)
in the concrete two-agent state. -/
theorem record_payment_spec_witness :
    (exState.record_payment "alice" "bob" 30 "p1" none).2 =
      .ok [ { agent_id := "alice", delta_amount := -30, entry_type := .payment,
              reference_id := "p1", balance_after := 70,
              memo := none, transaction_type := some .expense,
              counterparty_id := some "bob" },
            { agent_id := "bob", delta_amount := 30, entry_type := .payment,
              reference_id := "p1", balance_after := 30,
              memo := none, transaction_type := some .income,
              counterparty_id := some "alice" } ] := by
  have h := record_payment_spec exState "alice" "bob" "p1" none 30
    (mkAgent "alice" 100 0) (mkAgent "bob" 0 0)
    (by decide) (by decide) (by decide) (by decide) (by decide) (by decide)
  rw [h.1]
  decide

/-! ### Atomicity helpers: a raising operation leaves the state unchanged -/

theorem record_top_up_error_unchanged {s : LedgerState} (hwf : wfState s)
    {agent_id ref : String} {amount : Int} {memo : Option String} {e : LedgerError}
    (h : (s.record_top_up agent_id amount ref memo).2 = .error e) :
    (s.record_top_up agent_id amount ref memo).1 = s := by
  unfold LedgerState.record_top_up at h ⊢
  by_cases h1 : amount ≤ 0
  · simp [h1]
  · cases hma : lookupKey s.agents agent_id with
    | none => simp [AgentRegistry.get_agent, h1, hma]
    | some ag =>
      exfalso
      have hwa := wfRegistry_lookup hwf
        (show AgentRegistry.get_agent s.agents agent_id = some ag from hma)
      simp only [AgentRegistry.get_agent, AgentRegistry.balanceOf, h1, hma,
        if_false, lookupKey_modifyKey_self, Option.map_some'] at h
      split_ifs at h with h2
      omega

theorem record_escrow_lock_error_unchanged {s : LedgerState} (_hwf : wfState s)
    {agent_id ref : String} {amount : Int} {memo : Option String} {e : LedgerError}
    (h : (s.record_escrow_lock agent_id amount ref memo).2 = .error e) :
    (s.record_escrow_lock agent_id amount ref memo).1 = s := by
  unfold LedgerState.record_escrow_lock at h ⊢
  by_cases h1 : amount ≤ 0
  · simp [h1]
  · cases hma : lookupKey s.agents agent_id with
    | none => simp [AgentRegistry.get_agent, h1, hma]
    | some ag =>
      by_cases h2 : ag.wallet.balance < amount
      · simp [AgentRegistry.get_agent, h1, hma, h2]
      · exfalso
        simp only [AgentRegistry.get_agent, AgentRegistry.balanceOf, h1, hma, h2,
          if_false, lookupKey_modifyKey_self, Option.map_some'] at h
        split_ifs at h with h3
        omega

theorem record_escrow_cancel_error_unchanged {s : LedgerState} (hwf : wfState s)
    {agent_id ref : String} {amount : Int} {memo : Option String} {e : LedgerError}
    (h : (s.record_escrow_cancel agent_id amount ref memo).2 = .error e) :
    (s.record_escrow_cancel agent_id amount ref memo).1 = s := by
  unfold LedgerState.record_escrow_cancel at h ⊢
  by_cases h1 : amount ≤ 0
  · simp [h1]
  · cases hma : lookupKey s.agents agent_id with
    | none => simp [AgentRegistry.get_agent, h1, hma]
    | some ag =>
      by_cases h2 : ag.wallet.hold < amount
      · simp [AgentRegistry.get_agent, h1, hma, h2]
      · exfalso
        have hwa := wfRegistry_lookup hwf
          (show AgentRegistry.get_agent s.agents agent_id = some ag from hma)
        simp only [AgentRegistry.get_agent, AgentRegistry.balanceOf, h1, hma, h2,
          if_false, lookupKey_modifyKey_self, Option.map_some'] at h
        split_ifs at h with h3
        omega

theorem record_payment_error_unchanged {s : LedgerState} (hwf : wfState s)
    {a b ref : String} {amount : Int} {memo : Option String} {e : LedgerError}
    (h : (s.record_payment a b amount ref memo).2 = .error e) :
    (s.record_payment a b amount ref memo).1 = s := by
  unfold LedgerState.record_payment at h ⊢
  by_cases h1 : amount ≤ 0
  · simp [h1]
  · cases hma : lookupKey s.agents a with
    | none => simp [AgentRegistry.get_agent, h1, hma]
    | some ag =>
      cases hmb : lookupKey s.agents b with
      | none => simp [AgentRegistry.get_agent, h1, hma, hmb]
      | some bg =>
        by_cases h2 : ag.wallet.balance < amount
        · simp [AgentRegistry.get_agent, h1, hma, hmb, h2]
        · exfalso
          have hwa := wfRegistry_lookup hwf
            (show AgentRegistry.get_agent s.agents a = some ag from hma)
          have hwb := wfRegistry_lookup hwf
            (show AgentRegistry.get_agent s.agents b = some bg from hmb)
          by_cases hab : a = b
          · subst hab
            rw [hma] at hmb
            injection hmb with hbg
            subst hbg
            simp only [AgentRegistry.get_agent, AgentRegistry.balanceOf, h1, hma, h2,
              if_false, lookupKey_modifyKey_self, Option.map_some'] at h
            split_ifs at h with h3
            rcases h3 with h3 | h3 <;> omega
          · have hba : b ≠ a := Ne.symm hab
            simp only [AgentRegistry.get_agent, AgentRegistry.balanceOf, h1, hma, hmb, h2,
              if_false, lookupKey_modifyKey_self, lookupKey_modifyKey_ne _ _ _ _ hab,
              lookupKey_modifyKey_ne _ _ _ _ hba, Option.map_some'] at h
            split_ifs at h with h3
            rcases h3 with h3 | h3 <;> omega

theorem record_escrow_release_error_unchanged {s : LedgerState} (hwf : wfState s)
    {a b ref : String} {amount : Int} {memo : Option String} {e : LedgerError}
    (h : (s.record_escrow_release a b amount ref memo).2 = .error e) :
    (s.record_escrow_release a b amount ref memo).1 = s := by
  unfold LedgerState.record_escrow_release at h ⊢
  by_cases h1 : amount ≤ 0
  · simp [h1]
  · cases hma : lookupKey s.agents a with
    | none => simp [AgentRegistry.get_agent, h1, hma]
    | some ag =>
      cases hmb : lookupKey s.agents b with
      | none => simp [AgentRegistry.get_agent, h1, hma, hmb]
      | some bg =>
        by_cases h2 : ag.wallet.hold < amount
        · simp [AgentRegistry.get_agent, h1, hma, hmb, h2]
        · exfalso
          have hwa := wfRegistry_lookup hwf
            (show AgentRegistry.get_agent s.agents a = some ag from hma)
          have hwb := wfRegistry_lookup hwf
            (show AgentRegistry.get_agent s.agents b = some bg from hmb)
          by_cases hab : a = b
          · subst hab
            rw [hma] at hmb
            injection hmb with hbg
            subst hbg
            simp only [AgentRegistry.get_agent, AgentRegistry.balanceOf, h1, hma, h2,
              if_false, lookupKey_modifyKey_self, Option.map_some'] at h
            split_ifs at h with h3
            rcases h3 with h3 | h3 <;> omega
          · have hba : b ≠ a := Ne.symm hab
            simp only [AgentRegistry.get_agent, AgentRegistry.balanceOf, h1, hma, hmb, h2,
              if_false, lookupKey_modifyKey_self, lookupKey_modifyKey_ne _ _ _ _ hab,
              lookupKey_modifyKey_ne _ _ _ _ hba, Option.map_some'] at h
            split_ifs at h with h3
            rcases h3 with h3 | h3 <;> omega

/-- Claim C3: for every LedgerManager operation, a raised error leaves the
registry (every wallet, every total_earned/total_spent counter) and the
entry list exactly as before the call; the amount > 0 validation runs before
any other check; and agent existence is established before balance or hold
sufficiency can be reported. The well-formedness hypothesis (non-negative
balances and holds, guaranteed at registration by pydantic and preserved by
every operation) rules out the pydantic balance_after check firing after a
wallet mutation in states the system can never reach. -/
theorem ledger_ops_validate_before_mutating (s : LedgerState) (hwf : wfState s)
    (a b ref : String) (amount : Int) (memo : Option String) :
    (∀ e, (s.record_top_up a amount ref memo).2 = .error e →
      (s.record_top_up a amount ref memo).1 = s) ∧
    (∀ e, (s.record_payment a b amount ref memo).2 = .error e →
      (s.record_payment a b amount ref memo).1 = s) ∧
    (∀ e, (s.record_escrow_lock a amount ref memo).2 = .error e →
      (s.record_escrow_lock a amount ref memo).1 = s) ∧
    (∀ e, (s.record_escrow_release a b amount ref memo).2 = .error e →
      (s.record_escrow_release a b amount ref memo).1 = s) ∧
    (∀ e, (s.record_escrow_cancel a amount ref memo).2 = .error e →
      (s.record_escrow_cancel a amount ref memo).1 = s) ∧
    (amount ≤ 0 →
      (s.record_top_up a amount ref memo).2 = .error .invalidAmount ∧
      (s.record_payment a b amount ref memo).2 = .error .invalidAmount ∧
      (s.record_escrow_lock a amount ref memo).2 = .error .invalidAmount ∧
      (s.record_escrow_release a b amount ref memo).2 = .error .invalidAmount ∧
      (s.record_escrow_cancel a amount ref memo).2 = .error .invalidAmount) ∧
    ((s.record_payment a b amount ref memo).2 = .error (.insufficientFunds a) →
      0 < amount ∧ (∃ x, s.agents.get_agent a = some x) ∧
        ∃ y, s.agents.get_agent b = some y) ∧
    ((s.record_escrow_lock a amount ref memo).2 = .error (.insufficientFunds a) →
      0 < amount ∧ ∃ x, s.agents.get_agent a = some x) ∧
    ((s.record_escrow_release a b amount ref memo).2 = .error (.insufficientHold a) →
      0 < amount ∧ (∃ x, s.agents.get_agent a = some x) ∧
        ∃ y, s.agents.get_agent b = some y) ∧
    ((s.record_escrow_cancel a amount ref memo).2 = .error (.insufficientHold a) →
      0 < amount ∧ ∃ x, s.agents.get_agent a = some x) := by
  refine ⟨fun e h => record_top_up_error_unchanged hwf h,
    fun e h => record_payment_error_unchanged hwf h,
    fun e h => record_escrow_lock_error_unchanged hwf h,
    fun e h => record_escrow_release_error_unchanged hwf h,
    fun e h => record_escrow_cancel_error_unchanged hwf h,
    ?_, ?_, ?_, ?_, ?_⟩
  · intro h1
    unfold LedgerState.record_top_up LedgerState.record_payment
      LedgerState.record_escrow_lock LedgerState.record_escrow_release
      LedgerState.record_escrow_cancel
    simp [h1]
  · intro h
    unfold LedgerState.record_payment at h
    by_cases h1 : amount ≤ 0
    · simp [h1] at h
    · cases hma : lookupKey s.agents a with
      | none => simp [AgentRegistry.get_agent, h1, hma] at h
      | some ag =>
        cases hmb : lookupKey s.agents b with
        | none => simp [AgentRegistry.get_agent, h1, hma, hmb] at h
        | some bg => exact ⟨by omega, ⟨ag, hma⟩, ⟨bg, hmb⟩⟩
  · intro h
    unfold LedgerState.record_escrow_lock at h
    by_cases h1 : amount ≤ 0
    · simp [h1] at h
    · cases hma : lookupKey s.agents a with
      | none => simp [AgentRegistry.get_agent, h1, hma] at h
      | some ag => exact ⟨by omega, ⟨ag, hma⟩⟩
  · intro h
    unfold LedgerState.record_escrow_release at h
    by_cases h1 : amount ≤ 0
    · simp [h1] at h
    · cases hma : lookupKey s.agents a with
      | none => simp [AgentRegistry.get_agent, h1, hma] at h
      | some ag =>
        cases hmb : lookupKey s.agents b with
        | none => simp [AgentRegistry.get_agent, h1, hma, hmb] at h
        | some bg => exact ⟨by omega, ⟨ag, hma⟩, ⟨bg, hmb⟩⟩
  · intro h
    unfold LedgerState.record_escrow_cancel at h
    by_cases h1 : amount ≤ 0
    · simp [h1] at h
    · cases hma : lookupKey s.agents a with
      | none => simp [AgentRegistry.get_agent, h1, hma] at h
      | some ag => exact ⟨by omega, ⟨ag, hma⟩⟩

/-- Witness for C3: an insufficient-funds payment of 500 from alice
(balance 100) raises and leaves the concrete state untouched, and a
non-positive top-up is rejected as InvalidAmount before anything else. -/
theorem ledger_ops_validate_before_mutating_witness :
    (exState.record_payment "alice" "bob" 500 "p9" none).1 = exState ∧
    (exState.record_top_up "alice" 0 "t0" none).2 = .error .invalidAmount := by
  have h := ledger_ops_validate_before_mutating exState
    (by unfold wfState wfRegistry; decide) "alice" "bob" "p9" 500 none
  have h0 := ledger_ops_validate_before_mutating exState
    (by unfold wfState wfRegistry; decide) "alice" "bob" "t0" 0 none
  exact ⟨h.2.1 (.insufficientFunds "alice") (by decide), (h0.2.2.2.2.2.1 (by decide)).1⟩

/-! ### Non-negativity preservation -/

theorem wf_modify_wallet_eq {r : AgentRegistry} {k : String} {f : Agent → Agent}
    (hw : ∀ x, (f x).wallet = x.wallet) (hwf : wfRegistry r) :
    wfRegistry (modifyKey r k f) := by
  intro p hp
  rcases mem_modifyKey hp with h | ⟨a, ha, rfl⟩
  · exact hwf p h
  · have h1 := hwf (k, a) (lookupKey_mem ha)
    simpa [hw a] using h1

theorem wf_modify_balance_sub {r : AgentRegistry} {k : String} {amount : Int}
    (hsub : ∀ x : Agent, lookupKey r k = some x → amount ≤ x.wallet.balance)
    (hwf : wfRegistry r) :
    wfRegistry (modifyKey r k (fun x =>
      { x with wallet := { x.wallet with balance := x.wallet.balance - amount } })) := by
  intro p hp
  rcases mem_modifyKey hp with h | ⟨a, ha, rfl⟩
  · exact hwf p h
  · have h1 := hwf (k, a) (lookupKey_mem ha)
    have h2 := hsub a ha
    refine ⟨?_, ?_⟩ <;> simp at h1 ⊢ <;> omega

theorem wf_modify_balance_add {r : AgentRegistry} {k : String} {amount : Int}
    (hpos : 0 ≤ amount) (hwf : wfRegistry r) :
    wfRegistry (modifyKey r k (fun x =>
      { x with wallet := { x.wallet with balance := x.wallet.balance + amount } })) := by
  intro p hp
  rcases mem_modifyKey hp with h | ⟨a, ha, rfl⟩
  · exact hwf p h
  · have h1 := hwf (k, a) (lookupKey_mem ha)
    refine ⟨?_, ?_⟩ <;> simp at h1 ⊢ <;> omega

theorem wf_modify_hold_sub {r : AgentRegistry} {k : String} {amount : Int}
    (hsub : ∀ x : Agent, lookupKey r k = some x → amount ≤ x.wallet.hold)
    (hwf : wfRegistry r) :
    wfRegistry (modifyKey r k (fun x =>
      { x with wallet := { x.wallet with hold := x.wallet.hold - amount } })) := by
  intro p hp
  rcases mem_modifyKey hp with h | ⟨a, ha, rfl⟩
  · exact hwf p h
  · have h1 := hwf (k, a) (lookupKey_mem ha)
    have h2 := hsub a ha
    refine ⟨?_, ?_⟩ <;> simp at h1 ⊢ <;> omega

theorem wf_modify_lock_move {r : AgentRegistry} {k : String} {amount : Int}
    (hsub : ∀ x : Agent, lookupKey r k = some x → amount ≤ x.wallet.balance)
    (hpos : 0 ≤ amount) (hwf : wfRegistry r) :
    wfRegistry (modifyKey r k (fun x =>
      { x with wallet := { balance := x.wallet.balance - amount,
                           hold := x.wallet.hold + amount } })) := by
  intro p hp
  rcases mem_modifyKey hp with h | ⟨a, ha, rfl⟩
  · exact hwf p h
  · have h1 := hwf (k, a) (lookupKey_mem ha)
    have h2 := hsub a ha
    refine ⟨?_, ?_⟩ <;> simp at h1 ⊢ <;> omega

theorem wf_modify_cancel_move {r : AgentRegistry} {k : String} {amount : Int}
    (hsub : ∀ x : Agent, lookupKey r k = some x → amount ≤ x.wallet.hold)
    (hpos : 0 ≤ amount) (hwf : wfRegistry r) :
    wfRegistry (modifyKey r k (fun x =>
      { x with wallet := { balance := x.wallet.balance + amount,
                           hold := x.wallet.hold - amount } })) := by
  intro p hp
  rcases mem_modifyKey hp with h | ⟨a, ha, rfl⟩
  · exact hwf p h
  · have h1 := hwf (k, a) (lookupKey_mem ha)
    have h2 := hsub a ha
    refine ⟨?_, ?_⟩ <;> simp at h1 ⊢ <;> omega

theorem wf_record_top_up (s : LedgerState) (hwf : wfState s) (agent_id ref : String)
    (amount : Int) (memo : Option String) :
    wfState (s.record_top_up agent_id amount ref memo).1 := by
  unfold LedgerState.record_top_up
  by_cases h1 : amount ≤ 0
  · simpa [h1] using hwf
  · cases hma : lookupKey s.agents agent_id with
    | none => simpa [AgentRegistry.get_agent, h1, hma] using hwf
    | some ag =>
      have hpos : (0:Int) ≤ amount := by omega
      simp only [AgentRegistry.get_agent, h1, hma, if_false, ite_false]
      split_ifs <;> exact wf_modify_balance_add hpos hwf

theorem wf_record_escrow_lock (s : LedgerState) (hwf : wfState s) (agent_id ref : String)
    (amount : Int) (memo : Option String) :
    wfState (s.record_escrow_lock agent_id amount ref memo).1 := by
  unfold LedgerState.record_escrow_lock
  by_cases h1 : amount ≤ 0
  · simpa [h1] using hwf
  · cases hma : lookupKey s.agents agent_id with
    | none => simpa [AgentRegistry.get_agent, h1, hma] using hwf
    | some ag =>
      by_cases h2 : ag.wallet.balance < amount
      · simpa [AgentRegistry.get_agent, h1, hma, h2] using hwf
      · have hpos : (0:Int) ≤ amount := by omega
        have hsub : ∀ x : Agent, lookupKey s.agents agent_id = some x →
            amount ≤ x.wallet.balance := by
          intro x hx
          rw [hma] at hx
          injection hx with hx
          subst hx
          omega
        simp only [AgentRegistry.get_agent, h1, hma, h2, if_false, ite_false]
        split_ifs <;> exact wf_modify_lock_move hsub hpos hwf

theorem wf_record_escrow_cancel (s : LedgerState) (hwf : wfState s) (agent_id ref : String)
    (amount : Int) (memo : Option String) :
    wfState (s.record_escrow_cancel agent_id amount ref memo).1 := by
  unfold LedgerState.record_escrow_cancel
  by_cases h1 : amount ≤ 0
  · simpa [h1] using hwf
  · cases hma : lookupKey s.agents agent_id with
    | none => simpa [AgentRegistry.get_agent, h1, hma] using hwf
    | some ag =>
      by_cases h2 : ag.wallet.hold < amount
      · simpa [AgentRegistry.get_agent, h1, hma, h2] using hwf
      · have hpos : (0:Int) ≤ amount := by omega
        have hsub : ∀ x : Agent, lookupKey s.agents agent_id = some x →
            amount ≤ x.wallet.hold := by
          intro x hx
          rw [hma] at hx
          injection hx with hx
          subst hx
          omega
        simp only [AgentRegistry.get_agent, h1, hma, h2, if_false, ite_false]
        split_ifs <;> exact wf_modify_cancel_move hsub hpos hwf

theorem wf_record_payment (s : LedgerState) (hwf : wfState s) (a b ref : String)
    (amount : Int) (memo : Option String) :
    wfState (s.record_payment a b amount ref memo).1 := by
  unfold LedgerState.record_payment
  by_cases h1 : amount ≤ 0
  · simpa [h1] using hwf
  · cases hma : lookupKey s.agents a with
    | none => simpa [AgentRegistry.get_agent, h1, hma] using hwf
    | some ag =>
      cases hmb : lookupKey s.agents b with
      | none => simpa [AgentRegistry.get_agent, h1, hma, hmb] using hwf
      | some bg =>
        by_cases h2 : ag.wallet.balance < amount
        · simpa [AgentRegistry.get_agent, h1, hma, hmb, h2] using hwf
        · have hpos : (0:Int) ≤ amount := by omega
          have hsub : ∀ x : Agent, lookupKey s.agents a = some x →
              amount ≤ x.wallet.balance := by
            intro x hx
            rw [hma] at hx
            injection hx with hx
            subst hx
            omega
          simp only [AgentRegistry.get_agent, h1, hma, hmb, h2, if_false, ite_false]
          split_ifs <;>
            exact wf_modify_wallet_eq (fun x => rfl)
              (wf_modify_wallet_eq (fun x => rfl)
                (wf_modify_balance_add hpos (wf_modify_balance_sub hsub hwf)))

theorem wf_record_escrow_release (s : LedgerState) (hwf : wfState s) (a b ref : String)
    (amount : Int) (memo : Option String) :
    wfState (s.record_escrow_release a b amount ref memo).1 := by
  unfold LedgerState.record_escrow_release
  by_cases h1 : amount ≤ 0
  · simpa [h1] using hwf
  · cases hma : lookupKey s.agents a with
    | none => simpa [AgentRegistry.get_agent, h1, hma] using hwf
    | some ag =>
      cases hmb : lookupKey s.agents b with
      | none => simpa [AgentRegistry.get_agent, h1, hma, hmb] using hwf
      | some bg =>
        by_cases h2 : ag.wallet.hold < amount
        · simpa [AgentRegistry.get_agent, h1, hma, hmb, h2] using hwf
        · have hpos : (0:Int) ≤ amount := by omega
          have hsub : ∀ x : Agent, lookupKey s.agents a = some x →
              amount ≤ x.wallet.hold := by
            intro x hx
            rw [hma] at hx
            injection hx with hx
            subst hx
            omega
          simp only [AgentRegistry.get_agent, h1, hma, hmb, h2, if_false, ite_false]
          split_ifs <;>
            exact wf_modify_wallet_eq (fun x => rfl)
              (wf_modify_wallet_eq (fun x => rfl)
                (wf_modify_balance_add hpos (wf_modify_hold_sub hsub hwf)))

theorem wf_applyOp (s : LedgerState) (hwf : wfState s) (op : LedgerOp) :
    wfState (s.applyOp op) := by
  cases op with
  | topUp a amt ref m => exact wf_record_top_up s hwf a ref amt m
  | payment f t amt ref m => exact wf_record_payment s hwf f t ref amt m
  | escrowLock a amt ref m => exact wf_record_escrow_lock s hwf a ref amt m
  | escrowRelease f t amt ref m => exact wf_record_escrow_release s hwf f t ref amt m
  | escrowCancel a amt ref m => exact wf_record_escrow_cancel s hwf a ref amt m

theorem wf_applyOps (s : LedgerState) (hwf : wfState s) (ops : List LedgerOp) :
    wfState (s.applyOps ops) := by
  induction ops generalizing s with
  | nil => exact hwf
  | cons op ops ih => exact ih _ (wf_applyOp s hwf op)

/-- Claim C4: starting from any state in which every registered agent has
non-negative balance and hold, every sequence of core ledger operations
(top-up, payment, escrow lock, release, cancel, succeeding or raising)
preserves non-negativity of every balance and hold. -/
theorem wallet_nonnegativity_preserved (s : LedgerState) (ops : List LedgerOp)
    (hwf : ∀ p ∈ s.agents, 0 ≤ p.2.wallet.balance ∧ 0 ≤ p.2.wallet.hold) :
    ∀ p ∈ (s.applyOps ops).agents, 0 ≤ p.2.wallet.balance ∧ 0 ≤ p.2.wallet.hold :=
  wf_applyOps s hwf ops

/-- A concrete mixed sequence: top-up, failed oversized payment, escrow
lock, cancel, then a payment. -/
def exOps : List LedgerOp :=
  [LedgerOp.topUp "alice" 50 "t1" none,
   LedgerOp.payment "alice" "bob" 1000 "p1" none,
   LedgerOp.escrowLock "alice" 40 "e1" none,
   LedgerOp.escrowCancel "alice" 40 "e1" none,
   LedgerOp.payment "alice" "bob" 30 "p2" none]

/-- Witness for C4: after the concrete mixed sequence, alice still has a
non-negative balance. -/
theorem wallet_nonnegativity_preserved_witness :
    0 ≤ AgentRegistry.balanceOf (exState.applyOps exOps).agents "alice" := by
  have h := wallet_nonnegativity_preserved exState exOps (by decide)
  cases hma : AgentRegistry.get_agent (exState.applyOps exOps).agents "alice" with
  | none => simp [AgentRegistry.balanceOf, hma]
  | some a =>
    have h2 := (h ("alice", a) (lookupKey_mem hma)).1
    simp only [AgentRegistry.balanceOf, hma]
    exact h2

/-! ### Conservation of value in payment reference groups -/

/-- Every reference group consisting only of PAYMENT entries sums to zero. -/
def payOnlyZero (s : LedgerState) : Prop :=
  ∀ ref, (∀ e ∈ s.get_entries_by_reference ref, e.entry_type = EntryType.payment) →
    s.refSum ref = 0

theorem payOnlyZero_of_entries_eq {s t : LedgerState} (h : t.entries = s.entries)
    (hs : payOnlyZero s) : payOnlyZero t := by
  intro ref hall
  have h1 : t.get_entries_by_reference ref = s.get_entries_by_reference ref := by
    unfold LedgerState.get_entries_by_reference
    rw [h]
  have h2 : t.refSum ref = s.refSum ref := by
    unfold LedgerState.refSum
    rw [h1]
  rw [h2]
  exact hs ref (fun e he => hall e (h1 ▸ he))

theorem payOnlyZero_append_zero {s : LedgerState} (hs : payOnlyZero s)
    (A : AgentRegistry) (L : List LedgerEntry)
    (hsum : ∀ ref,
      ((L.filter (fun e => decide (e.reference_id = ref))).map
        (fun e => e.delta_amount)).sum = 0) :
    payOnlyZero { agents := A, entries := s.entries ++ L } := by
  intro ref hall
  unfold LedgerState.get_entries_by_reference at hall
  unfold LedgerState.refSum LedgerState.get_entries_by_reference
  simp only [List.filter_append, List.map_append, List.sum_append] at hall ⊢
  have hold : ((s.entries.filter (fun e => decide (e.reference_id = ref))).map
      (fun e => e.delta_amount)).sum = 0 := by
    have := hs ref (fun e he => hall e (List.mem_append_left _ he))
    unfold LedgerState.refSum LedgerState.get_entries_by_reference at this
    exact this
  rw [hold, hsum ref]
  simp

theorem payOnlyZero_append_nonpay {s : LedgerState} (hs : payOnlyZero s)
    (A : AgentRegistry) (L : List LedgerEntry) (r0 : String)
    (hrefs : ∀ e ∈ L, e.reference_id = r0)
    (hnp : ∃ e ∈ L, e.entry_type ≠ EntryType.payment) :
    payOnlyZero { agents := A, entries := s.entries ++ L } := by
  intro ref hall
  unfold LedgerState.get_entries_by_reference at hall
  unfold LedgerState.refSum LedgerState.get_entries_by_reference
  simp only [List.filter_append, List.map_append, List.sum_append] at hall ⊢
  by_cases hr : r0 = ref
  · subst hr
    obtain ⟨e, heL, het⟩ := hnp
    have hin : e ∈ L.filter (fun x => decide (x.reference_id = r0)) := by
      rw [List.mem_filter]
      exact ⟨heL, by simp [hrefs e heL]⟩
    exact absurd (hall e (List.mem_append_right _ hin)) het
  · have hLnil : L.filter (fun x => decide (x.reference_id = ref)) = [] := by
      rw [List.filter_eq_nil_iff]
      intro e heL
      simp [hrefs e heL, hr]
    have hold : ((s.entries.filter (fun e => decide (e.reference_id = ref))).map
        (fun e => e.delta_amount)).sum = 0 := by
      have := hs ref (fun e he => hall e (List.mem_append_left _ he))
      unfold LedgerState.refSum LedgerState.get_entries_by_reference at this
      exact this
    rw [hLnil, hold]
    simp

/-- Branch shape of record_top_up: either the entries are untouched, or a
single TOP_UP entry under its reference is appended. -/
theorem record_top_up_entries_shape (s : LedgerState) (a : String) (amount : Int)
    (ref : String) (memo : Option String) :
    (s.record_top_up a amount ref memo).1.entries = s.entries ∨
    ∃ E : LedgerEntry, E.entry_type = EntryType.top_up ∧ E.reference_id = ref ∧
      (s.record_top_up a amount ref memo).1.entries = s.entries ++ [E] := by
  unfold LedgerState.record_top_up
  by_cases h1 : amount ≤ 0
  · left; simp [h1]
  · cases hma : lookupKey s.agents a with
    | none => left; simp [AgentRegistry.get_agent, h1, hma]
    | some ag =>
      simp only [AgentRegistry.get_agent, h1, hma, if_false, ite_false]
      split_ifs
      · left; rfl
      · right; exact ⟨_, rfl, rfl, rfl⟩

/-- Branch shape of record_escrow_lock. -/
theorem record_escrow_lock_entries_shape (s : LedgerState) (a : String) (amount : Int)
    (ref : String) (memo : Option String) :
    (s.record_escrow_lock a amount ref memo).1.entries = s.entries ∨
    ∃ E : LedgerEntry, E.entry_type = EntryType.escrow_lock ∧ E.reference_id = ref ∧
      (s.record_escrow_lock a amount ref memo).1.entries = s.entries ++ [E] := by
  unfold LedgerState.record_escrow_lock
  by_cases h1 : amount ≤ 0
  · left; simp [h1]
  · cases hma : lookupKey s.agents a with
    | none => left; simp [AgentRegistry.get_agent, h1, hma]
    | some ag =>
      by_cases h2 : ag.wallet.balance < amount
      · left; simp [AgentRegistry.get_agent, h1, hma, h2]
      · simp only [AgentRegistry.get_agent, h1, hma, h2, if_false, ite_false]
        split_ifs
        · left; rfl
        · right; exact ⟨_, rfl, rfl, rfl⟩

/-- Branch shape of record_escrow_cancel. -/
theorem record_escrow_cancel_entries_shape (s : LedgerState) (a : String) (amount : Int)
    (ref : String) (memo : Option String) :
    (s.record_escrow_cancel a amount ref memo).1.entries = s.entries ∨
    ∃ E : LedgerEntry, E.entry_type = EntryType.escrow_cancel ∧ E.reference_id = ref ∧
      (s.record_escrow_cancel a amount ref memo).1.entries = s.entries ++ [E] := by
  unfold LedgerState.record_escrow_cancel
  by_cases h1 : amount ≤ 0
  · left; simp [h1]
  · cases hma : lookupKey s.agents a with
    | none => left; simp [AgentRegistry.get_agent, h1, hma]
    | some ag =>
      by_cases h2 : ag.wallet.hold < amount
      · left; simp [AgentRegistry.get_agent, h1, hma, h2]
      · simp only [AgentRegistry.get_agent, h1, hma, h2, if_false, ite_false]
        split_ifs
        · left; rfl
        · right; exact ⟨_, rfl, rfl, rfl⟩

/-- Branch shape of record_payment: on success exactly a debit and a credit
with opposite deltas under the same reference are appended. -/
theorem record_payment_entries_shape (s : LedgerState) (a b : String) (amount : Int)
    (ref : String) (memo : Option String) :
    (s.record_payment a b amount ref memo).1.entries = s.entries ∨
    ∃ d c : LedgerEntry, d.reference_id = ref ∧ c.reference_id = ref ∧
      d.delta_amount + c.delta_amount = 0 ∧
      (s.record_payment a b amount ref memo).1.entries = s.entries ++ [d, c] := by
  unfold LedgerState.record_payment
  by_cases h1 : amount ≤ 0
  · left; simp [h1]
  · cases hma : lookupKey s.agents a with
    | none => left; simp [AgentRegistry.get_agent, h1, hma]
    | some ag =>
      cases hmb : lookupKey s.agents b with
      | none => left; simp [AgentRegistry.get_agent, h1, hma, hmb]
      | some bg =>
        by_cases h2 : ag.wallet.balance < amount
        · left; simp [AgentRegistry.get_agent, h1, hma, hmb, h2]
        · simp only [AgentRegistry.get_agent, h1, hma, hmb, h2, if_false, ite_false]
          split_ifs
          · left; rfl
          · right; exact ⟨_, _, rfl, rfl, by simp, rfl⟩

/-- Branch shape of record_escrow_release: on success two ESCROW_RELEASE
entries under the same reference are appended. -/
theorem record_escrow_release_entries_shape (s : LedgerState) (a b : String)
    (amount : Int) (ref : String) (memo : Option String) :
    (s.record_escrow_release a b amount ref memo).1.entries = s.entries ∨
    ∃ d c : LedgerEntry, d.entry_type = EntryType.escrow_release ∧
      d.reference_id = ref ∧ c.reference_id = ref ∧
      (s.record_escrow_release a b amount ref memo).1.entries = s.entries ++ [d, c] := by
  unfold LedgerState.record_escrow_release
  by_cases h1 : amount ≤ 0
  · left; simp [h1]
  · cases hma : lookupKey s.agents a with
    | none => left; simp [AgentRegistry.get_agent, h1, hma]
    | some ag =>
      cases hmb : lookupKey s.agents b with
      | none => left; simp [AgentRegistry.get_agent, h1, hma, hmb]
      | some bg =>
        by_cases h2 : ag.wallet.hold < amount
        · left; simp [AgentRegistry.get_agent, h1, hma, hmb, h2]
        · simp only [AgentRegistry.get_agent, h1, hma, hmb, h2, if_false, ite_false]
          split_ifs
          · left; rfl
          · right; exact ⟨_, _, rfl, rfl, rfl, rfl⟩

theorem payOnlyZero_applyOp (s : LedgerState) (hs : payOnlyZero s) (op : LedgerOp) :
    payOnlyZero (s.applyOp op) := by
  cases op with
  | topUp a amt ref m =>
    rcases record_top_up_entries_shape s a amt ref m with h | ⟨E, ht, hr, h⟩
    · exact payOnlyZero_of_entries_eq h hs
    · have := payOnlyZero_append_nonpay hs (s.record_top_up a amt ref m).1.agents [E] ref
        (by intro e he; simp at he; subst he; exact hr)
        ⟨E, by simp, by simp [ht]⟩
      apply payOnlyZero_of_entries_eq _ this
      exact h
  | payment a b amt ref m =>
    rcases record_payment_entries_shape s a b amt ref m with h | ⟨d, c, hdr, hcr, hz, h⟩
    · exact payOnlyZero_of_entries_eq h hs
    · have := payOnlyZero_append_zero hs (s.record_payment a b amt ref m).1.agents [d, c]
        (by
          intro r
          by_cases hr : ref = r
          · subst hr
            simp [List.filter, hdr, hcr, hz]
          · have hd : ¬ d.reference_id = r := by rw [hdr]; exact hr
            have hc : ¬ c.reference_id = r := by rw [hcr]; exact hr
            simp [List.filter, hd, hc])
      apply payOnlyZero_of_entries_eq _ this
      exact h
  | escrowLock a amt ref m =>
    rcases record_escrow_lock_entries_shape s a amt ref m with h | ⟨E, ht, hr, h⟩
    · exact payOnlyZero_of_entries_eq h hs
    · have := payOnlyZero_append_nonpay hs (s.record_escrow_lock a amt ref m).1.agents [E] ref
        (by intro e he; simp at he; subst he; exact hr)
        ⟨E, by simp, by simp [ht]⟩
      apply payOnlyZero_of_entries_eq _ this
      exact h
  | escrowRelease a b amt ref m =>
    rcases record_escrow_release_entries_shape s a b amt ref m with h | ⟨d, c, ht, hdr, hcr, h⟩
    · exact payOnlyZero_of_entries_eq h hs
    · have := payOnlyZero_append_nonpay hs
        (s.record_escrow_release a b amt ref m).1.agents [d, c] ref
        (by intro e he; simp at he; rcases he with he | he <;> subst he <;> assumption)
        ⟨d, by simp, by simp [ht]⟩
      apply payOnlyZero_of_entries_eq _ this
      exact h
  | escrowCancel a amt ref m =>
    rcases record_escrow_cancel_entries_shape s a amt ref m with h | ⟨E, ht, hr, h⟩
    · exact payOnlyZero_of_entries_eq h hs
    · have := payOnlyZero_append_nonpay hs (s.record_escrow_cancel a amt ref m).1.agents [E] ref
        (by intro e he; simp at he; subst he; exact hr)
        ⟨E, by simp, by simp [ht]⟩
      apply payOnlyZero_of_entries_eq _ this
      exact h

theorem payOnlyZero_applyOps (s : LedgerState) (hs : payOnlyZero s)
    (ops : List LedgerOp) : payOnlyZero (s.applyOps ops) := by
  induction ops generalizing s with
  | nil => exact hs
  | cons op ops ih => exact ih _ (payOnlyZero_applyOp s hs op)

/-- Claim C1 (amended): in every ledger state reachable from an empty entry
list, a reference group all of whose entries are PAYMENT entries sums to
zero; in particular every payment reference group conserves value. Groups
containing TOP_UP or WITHDRAWAL entries remain exempt as stated, but escrow
reference groups must be exempted too: the single ESCROW_LOCK debit entry is
never offset within its group, so a locked or released escrow group sums to
minus the escrow amount and only a cancelled escrow group returns to zero. -/
theorem payment_reference_groups_sum_zero (s0 : LedgerState) (ops : List LedgerOp)
    (h0 : s0.entries = []) (ref : String)
    (hall : ∀ e ∈ (s0.applyOps ops).get_entries_by_reference ref,
      e.entry_type = EntryType.payment) :
    (s0.applyOps ops).refSum ref = 0 := by
  have hbase : payOnlyZero s0 := by
    intro r _
    unfold LedgerState.refSum LedgerState.get_entries_by_reference
    rw [h0]
    simp
  exact payOnlyZero_applyOps s0 hbase ops ref hall

/-- Counterexample for C1 as stated: from the concrete two-agent state, a
single escrow lock of 5 yields a non-empty reference group e1 that contains
no TOP_UP and no WITHDRAWAL entry yet sums to -5, not 0. -/
theorem escrow_group_nonzero_sum :
    (exState.applyOps [LedgerOp.escrowLock "alice" 5 "e1" none]).get_entries_by_reference
        "e1" ≠ [] ∧
    (∀ e ∈ (exState.applyOps
        [LedgerOp.escrowLock "alice" 5 "e1" none]).get_entries_by_reference "e1",
      e.entry_type ≠ EntryType.top_up ∧ e.entry_type ≠ EntryType.withdrawal) ∧
    (exState.applyOps [LedgerOp.escrowLock "alice" 5 "e1" none]).refSum "e1" = -5 := by
  decide

/-- Witness for C1: the payment group p1 of a concrete top-up plus payment
run sums to zero. -/
theorem payment_reference_groups_sum_zero_witness :
    (exState.applyOps [LedgerOp.topUp "alice" 50 "t1" none,
      LedgerOp.payment "alice" "bob" 30 "p1" none]).refSum "p1" = 0 :=
  payment_reference_groups_sum_zero exState
    [LedgerOp.topUp "alice" 50 "t1" none, LedgerOp.payment "alice" "bob" 30 "p1" none]
    (by decide) "p1" (by decide)

/-! ### Payment engine: idempotency store -/

theorem execute_payment_unkeyed_cache (s : EngineState) (i : PaymentIntent) (now : Nat)
    (hkey : i.idempotency_key = none) :
    ((s.execute_payment i now).1).processed_intents = s.processed_intents := by
  unfold EngineState.execute_payment EngineState.failed_result
  rw [hkey]
  simp only []
  cases hma : s.ledger.agents.get_agent i.from_agent_id with
  | none => simp [PaymentIntent.mark_failed, hkey]
  | some fa =>
    cases hmb : s.ledger.agents.get_agent i.to_agent_id with
    | none => simp [PaymentIntent.mark_failed, hkey]
    | some ta =>
      rcases hcp : fa.can_pay i.amount i.to_agent_id with ⟨ok, reason⟩
      cases ok with
      | false => simp [hcp, PaymentIntent.mark_failed, hkey]
      | true =>
        rcases hrp : s.ledger.record_payment i.from_agent_id i.to_agent_id
            i.amount i.intent_id i.memo with ⟨ledger', res⟩
        cases res with
        | ok l => simp [hcp, hrp, hkey]
        | error e => simp [hcp, hrp, PaymentIntent.mark_failed, hkey]

/-- Claim C10: executing an intent whose idempotency_key is None never
populates the processed-intents store, so a later get_payment_status on its
intent_id returns None (the store is scanned by intent_id but only keyed
intents are ever inserted). The freshness hypothesis says no previously
cached intent happens to carry the same (uuid-generated) intent_id. -/
theorem unkeyed_intents_not_in_status_store (s : EngineState) (i : PaymentIntent)
    (now : Nat) (hkey : i.idempotency_key = none)
    (hfresh : ∀ p ∈ s.processed_intents, p.2.intent_id ≠ i.intent_id) :
    ((s.execute_payment i now).1).processed_intents = s.processed_intents ∧
    ((s.execute_payment i now).1).get_payment_status i.intent_id = none := by
  have h1 := execute_payment_unkeyed_cache s i now hkey
  refine ⟨h1, ?_⟩
  unfold EngineState.get_payment_status
  rw [h1]
  have h2 : s.processed_intents.find?
      (fun p => decide (p.2.intent_id = i.intent_id)) = none := by
    rw [List.find?_eq_none]
    intro p hp
    simp [hfresh p hp]
  simp [h2]

/-- Witness for C10: executing the unkeyed baseIntent on the concrete
engine leaves the store empty and its status lookup returns none. -/
theorem unkeyed_intents_not_in_status_store_witness :
    ((exEngine.execute_payment baseIntent 0).1).processed_intents =
      exEngine.processed_intents ∧
    ((exEngine.execute_payment baseIntent 0).1).get_payment_status "i1" = none :=
  unkeyed_intents_not_in_status_store exEngine baseIntent 0 (by decide) (by decide)

/-- Claim C6: for two distinct registered agents where the payer has no
funds on hold and a balance covering the (positive) escrow amount,
create_escrow succeeds with the generated id and LOCKED status; a
following release_escrow leaves the payer hold at 0 and raises the payee
balance by the amount; a following cancel_escrow instead restores the payer
balance to its pre-escrow value with hold 0. -/
theorem escrow_round_trip (s : EscrowManagerState) (from_id to_id new_id : String)
    (memo : Option String) (amount : Int) (fa ta : Agent) (now : Nat)
    (hf : s.ledger.agents.get_agent from_id = some fa)
    (ht : s.ledger.agents.get_agent to_id = some ta)
    (hne : from_id ≠ to_id) (hpos : 0 < amount)
    (hbal : amount ≤ fa.wallet.balance) (hhold : fa.wallet.hold = 0)
    (htb : 0 ≤ ta.wallet.balance) :
    (s.create_escrow from_id to_id amount memo new_id).2 =
      .ok { success := true,
            escrow := { escrow_id := new_id, from_agent_id := from_id,
                        to_agent_id := to_id, amount := amount,
                        status := .locked, completed_at := none, memo := memo },
            error_code := none, error_message := none } ∧
    AgentRegistry.holdOf
      (((s.create_escrow from_id to_id amount memo new_id).1.release_escrow
        new_id now).1).ledger.agents from_id = 0 ∧
    AgentRegistry.balanceOf
      (((s.create_escrow from_id to_id amount memo new_id).1.release_escrow
        new_id now).1).ledger.agents to_id = ta.wallet.balance + amount ∧
    AgentRegistry.balanceOf
      (((s.create_escrow from_id to_id amount memo new_id).1.cancel_escrow
        new_id now).1).ledger.agents from_id = fa.wallet.balance ∧
    AgentRegistry.holdOf
      (((s.create_escrow from_id to_id amount memo new_id).1.cancel_escrow
        new_id now).1).ledger.agents from_id = 0 := by
  have hf' : lookupKey s.ledger.agents from_id = some fa := hf
  have ht' : lookupKey s.ledger.agents to_id = some ta := ht
  have hne' : to_id ≠ from_id := Ne.symm hne
  have h1 : ¬ amount ≤ 0 := by omega
  have h2 : ¬ fa.wallet.balance < amount := by omega
  have hch : fa.wallet.can_hold amount = true := by
    unfold Wallet.can_hold
    simp
    omega
  have h3 : ¬ fa.wallet.balance - amount < 0 := by omega
  have h4 : ¬ fa.wallet.hold + amount < amount := by omega
  have h5 : ¬ ta.wallet.balance + amount < 0 := by omega
  have h6 : ¬ fa.wallet.balance - amount + amount < 0 := by omega
  unfold EscrowManagerState.create_escrow EscrowManagerState.release_escrow
    EscrowManagerState.cancel_escrow LedgerState.record_escrow_lock
    LedgerState.record_escrow_release LedgerState.record_escrow_cancel
  simp only [AgentRegistry.get_agent, AgentRegistry.balanceOf, AgentRegistry.holdOf,
    hf', ht', h1, h2, h3, h4, h5, h6, hch, lookupKey_setKey_self,
    lookupKey_modifyKey_self, lookupKey_modifyKey_ne _ _ _ _ hne,
    lookupKey_modifyKey_ne _ _ _ _ hne', Option.map_some', Bool.not_true,
    ite_false, ite_true, if_false, if_true, ne_eq, not_true_eq_false,
    not_false_eq_true, reduceIte, false_or, or_false, or_self]
  refine ⟨trivial, ?_, ?_, ?_, ?_⟩ <;> first | trivial | omega

/-- Witness for C6: the concrete round trips on escrow e1 of amount 5. -/
theorem escrow_round_trip_witness :
    AgentRegistry.holdOf
      (((exEscrowMgr.create_escrow "alice" "bob" 5 none "e1").1.release_escrow
        "e1" 7).1).ledger.agents "alice" = 0 ∧
    AgentRegistry.balanceOf
      (((exEscrowMgr.create_escrow "alice" "bob" 5 none "e1").1.cancel_escrow
        "e1" 7).1).ledger.agents "alice" = 100 := by
  have h := escrow_round_trip exEscrowMgr "alice" "bob" "e1" none 5
    (mkAgent "alice" 100 0) (mkAgent "bob" 0 0) 7 (by decide) (by decide)
    (by decide) (by decide) (by decide) (by decide) (by decide)
  exact ⟨h.2.1, h.2.2.2.1.trans rfl⟩

/-! ### Payment engine: idempotency of keyed execution -/

theorem mark_failed_status_ne_completed (i : PaymentIntent) (r : String) (now : Nat) :
    (i.mark_failed r now).status ≠ PaymentStatus.completed := by
  unfold PaymentIntent.mark_failed
  split_ifs <;> simp

/-- A successful record_payment appends exactly two entries. -/
theorem record_payment_ok_appends {s : LedgerState} {a b ref : String} {amount : Int}
    {memo : Option String} {ledger' : LedgerState} {l : List LedgerEntry}
    (h : s.record_payment a b amount ref memo = (ledger', .ok l)) :
    ∃ d c, ledger'.entries = s.entries ++ [d, c] := by
  unfold LedgerState.record_payment at h
  by_cases h1 : amount ≤ 0
  · simp [h1] at h
  · cases hma : lookupKey s.agents a with
    | none => simp [AgentRegistry.get_agent, h1, hma] at h
    | some ag =>
      cases hmb : lookupKey s.agents b with
      | none => simp [AgentRegistry.get_agent, h1, hma, hmb] at h
      | some bg =>
        by_cases h2 : ag.wallet.balance < amount
        · simp [AgentRegistry.get_agent, h1, hma, hmb, h2] at h
        · simp only [AgentRegistry.get_agent, h1, hma, hmb, h2, if_false,
            ite_false] at h
          split_ifs at h with h3
          · simp at h
          · exact ⟨_, _, congrArg (fun x => x.1.entries) h.symm⟩

/-- After a keyed, cache-missing execute_payment call, the result intent is
cached under the key, keeps the submitted intent_id, succeeds exactly when
its status is COMPLETED, and a successful call appended exactly one
debit/credit pair to the ledger. -/
theorem execute_payment_keyed_caches (s : EngineState) (i : PaymentIntent) (k : String)
    (now : Nat) (hk : i.idempotency_key = some k) (hke : ¬ k = "")
    (hmiss : lookupKey s.processed_intents k = none) :
    lookupKey ((s.execute_payment i now).1).processed_intents k =
      some ((s.execute_payment i now).2).payment_intent ∧
    ((s.execute_payment i now).2).payment_intent.intent_id = i.intent_id ∧
    (((s.execute_payment i now).2).success = true ↔
      ((s.execute_payment i now).2).payment_intent.status = PaymentStatus.completed) ∧
    (((s.execute_payment i now).2).success = true →
      ∃ d c, ((s.execute_payment i now).1).ledger.entries = s.ledger.entries ++ [d, c]) := by
  unfold EngineState.execute_payment EngineState.failed_result
  rw [hk]
  simp only [hke, ite_false, if_false, hmiss]
  cases hma : s.ledger.agents.get_agent i.from_agent_id with
  | none =>
    simp only [hma, PaymentIntent.mark_failed, hk, hke, ite_false, if_false,
      lookupKey_setKey_self]
    refine ⟨by first | rfl | trivial, by first | rfl | trivial, ?_,
      by intro h; simp at h⟩
    constructor <;> intro hx <;> first | (split_ifs at hx <;> simp_all) | simp_all
  | some fa =>
    cases hmb : s.ledger.agents.get_agent i.to_agent_id with
    | none =>
      simp only [hma, hmb, PaymentIntent.mark_failed, hk, hke, ite_false, if_false,
        lookupKey_setKey_self]
      refine ⟨by first | rfl | trivial, by first | rfl | trivial, ?_,
        by intro h; simp at h⟩
      constructor <;> intro hx <;> first | (split_ifs at hx <;> simp_all) | simp_all
    | some ta =>
      rcases hcp : fa.can_pay i.amount i.to_agent_id with ⟨ok, reason⟩
      cases ok with
      | false =>
        simp only [hma, hmb, hcp, PaymentIntent.mark_failed, hk, hke, ite_false,
          if_false, lookupKey_setKey_self]
        refine ⟨by first | rfl | trivial, by first | rfl | trivial, ?_,
          by intro h; simp at h⟩
        constructor <;> intro hx <;> first | (split_ifs at hx <;> simp_all) | simp_all
      | true =>
        rcases hrp : s.ledger.record_payment i.from_agent_id i.to_agent_id
            i.amount i.intent_id i.memo with ⟨ledger', res⟩
        cases res with
        | ok l =>
          simp only [hma, hmb, hcp, hrp, hk, hke, ite_false, if_false]
          refine ⟨?_, rfl, ?_, ?_⟩
          · simp [lookupKey_setKey_self, PaymentIntent.mark_completed]
          · simp [PaymentIntent.mark_completed]
          · intro _
            exact record_payment_ok_appends hrp
        | error e =>
          simp only [hma, hmb, hcp, hrp, PaymentIntent.mark_failed, hk, hke,
            ite_false, if_false, lookupKey_setKey_self]
          refine ⟨by first | rfl | trivial, by first | rfl | trivial, ?_,
            by intro h; simp at h⟩
          constructor <;> intro hx <;> first | (split_ifs at hx <;> simp_all) | simp_all

/-- Claim C5 (amended): with a non-empty idempotency key (the engine tests
the key for Python truthiness, so the empty string behaves like no key),
executing twice leaves the state of the first call untouched: the second
call returns the cached intent verbatim (same intent object, hence the
first submission's intent_id), succeeds exactly when the cached status is
COMPLETED, performs no wallet mutation and no ledger append, and when the
first call succeeded exactly one debit/credit pair was appended across both
calls. -/
theorem idempotent_execution_nonempty_key (s0 : EngineState) (i1 i2 : PaymentIntent)
    (k : String) (n1 n2 : Nat)
    (hk1 : i1.idempotency_key = some k) (hke : ¬ k = "")
    (hk2 : i2.idempotency_key = some k)
    (hmiss : lookupKey s0.processed_intents k = none) :
    ((s0.execute_payment i1 n1).1.execute_payment i2 n2).1 =
      (s0.execute_payment i1 n1).1 ∧
    ((s0.execute_payment i1 n1).1.execute_payment i2 n2).2.payment_intent =
      (s0.execute_payment i1 n1).2.payment_intent ∧
    ((s0.execute_payment i1 n1).1.execute_payment i2 n2).2.payment_intent.intent_id =
      i1.intent_id ∧
    (((s0.execute_payment i1 n1).1.execute_payment i2 n2).2.success = true ↔
      (s0.execute_payment i1 n1).2.payment_intent.status = PaymentStatus.completed) ∧
    ((s0.execute_payment i1 n1).2.success = true →
      ∃ d c, (s0.execute_payment i1 n1).1.ledger.entries = s0.ledger.entries ++ [d, c]) := by
  have h := execute_payment_keyed_caches s0 i1 k n1 hk1 hke hmiss
  generalize hout : s0.execute_payment i1 n1 = out1 at h ⊢
  obtain ⟨hcache, hid, hsucc, happ⟩ := h
  have hsecond :
      out1.1.execute_payment i2 n2 =
        (out1.1,
          { success := decide (out1.2.payment_intent.status = PaymentStatus.completed),
            payment_intent := out1.2.payment_intent,
            error_code := out1.2.payment_intent.failure_reason,
            error_message :=
              some ("Already processed: " ++ out1.2.payment_intent.status.value) }) := by
    unfold EngineState.execute_payment
    rw [hk2]
    simp only [hke, ite_false, if_false, hcache]
  rw [hsecond]
  refine ⟨rfl, rfl, hid, ?_, happ⟩
  simp

/-- Counterexample for C5 as stated: an empty-string key is non-null but
falsy, so the second call re-executes: two balance mutations happen and the
second result carries the second intent_id, not the first. -/
theorem empty_key_bypasses_idempotency :
    (let i1 : PaymentIntent :=
      { intent_id := "i1", from_agent_id := "alice", to_agent_id := "bob",
        amount := 10, status := .requires_confirmation, idempotency_key := some "",
        memo := none, completed_at := none, failure_reason := none }
    let i2 : PaymentIntent := { i1 with intent_id := "i2" }
    let r1 := exEngine.execute_payment i1 0
    let r2 := r1.1.execute_payment i2 1
    i1.idempotency_key ≠ none ∧ r1.2.success = true ∧ r2.2.success = true ∧
      AgentRegistry.balanceOf r1.1.ledger.agents "alice" = 90 ∧
      AgentRegistry.balanceOf r2.1.ledger.agents "alice" = 80 ∧
      r2.2.payment_intent.intent_id = "i2" ∧
      r2.1.ledger.entries.length = r1.1.ledger.entries.length + 2) := by
  decide

/-- Witness for C5: with key kk on the concrete engine, the second call
leaves the first call's state untouched and reports the first intent. -/
theorem idempotent_execution_nonempty_key_witness :
    ((exEngine.execute_payment { baseIntent with idempotency_key := some "kk" } 0).1.execute_payment
        { baseIntent with intent_id := "i2", idempotency_key := some "kk" } 1).1 =
      (exEngine.execute_payment { baseIntent with idempotency_key := some "kk" } 0).1 ∧
    ((exEngine.execute_payment { baseIntent with idempotency_key := some "kk" } 0).1.execute_payment
        { baseIntent with intent_id := "i2", idempotency_key := some "kk" } 1).2.payment_intent.intent_id =
      "i1" := by
  have h := idempotent_execution_nonempty_key exEngine
    { baseIntent with idempotency_key := some "kk" }
    { baseIntent with intent_id := "i2", idempotency_key := some "kk" }
    "kk" 0 1 rfl (by decide) rfl (by decide)
  exact ⟨h.1, h.2.2.1⟩

end AgentPay
